import Mathlib

/-!
# xray-knife: probe results, their ordering, and link parsing

A shallow embedding of the parts of `cmd/net/http.go`, `pkg/xray/vmess.go`,
`pkg/singbox/trojan.go` and `pkg/xray/wireguard.go` that the properties below
are about.

Conventions of the embedding.

* A Go `string` is a Lean `String` read one character per byte: `len(s)` is
  `s.length`, `s[n:]` drops `n` characters, and `<` is the lexicographic order
  on the character codes, which is Go's byte-wise order.
* `int64` values are integers (`Int`); only their order is used. `uint32`
  arithmetic is on `Nat` with an explicit `% 2 ^ 32`.
* A Go `float32` is modelled by `float32` below: the exactly representable
  rationals together with the infinities and NaN, with IEEE 754
  round-to-nearest-even arithmetic. The two zeros are one value, read as `+0`:
  every zero the program divides by is the conversion of an unsigned integer.
* A Go function that mutates its receiver takes the receiver and returns it.
-/

namespace XrayKnife

/-! ## float32 -/

/-- The values of Go's `float32`: NaN, the two infinities and the finite values. -/
inductive float32 where
  | nan : float32
  | posInf : float32
  | negInf : float32
  | fin (q : ℚ) : float32
deriving DecidableEq

namespace float32

/-- Go's `>=` on `float32`: false as soon as one operand is NaN. -/
def ge : float32 → float32 → Bool
  | nan, _ => false
  | _, nan => false
  | posInf, _ => true
  | _, negInf => true
  | negInf, _ => false
  | fin _, posInf => false
  | fin a, fin b => decide (b ≤ a)

/-- Go's `<` on `float32`: false as soon as one operand is NaN. -/
def lt : float32 → float32 → Bool
  | nan, _ => false
  | _, nan => false
  | posInf, _ => false
  | _, posInf => true
  | _, negInf => false
  | negInf, fin _ => true
  | fin a, fin b => decide (a < b)

/-- Floor of the binary logarithm of a natural number (0 for 0), with fuel. -/
def ilog2Aux : Nat → Nat → Nat
  | 0, _ => 0
  | fuel + 1, n => if n < 2 then 0 else ilog2Aux fuel (n / 2) + 1

/-- Floor of the binary logarithm of a natural number (0 for 0). -/
def ilog2 (n : Nat) : Nat := ilog2Aux n n

/-- The power of two with an integer exponent, as a rational. -/
def pow2 : Int → ℚ
  | Int.ofNat n => ((2 ^ n : Nat) : ℚ)
  | Int.negSucc n => 1 / ((2 ^ (n + 1) : Nat) : ℚ)

/-- Floor of the binary logarithm of a positive rational. -/
def floorLog2 (q : ℚ) : Int :=
  let e0 : Int := (ilog2 q.num.toNat : Int) - (ilog2 q.den : Int)
  if pow2 e0 ≤ q then e0 else e0 - 1

/-- Rounding of a non-negative rational to the nearest integer, ties to even. -/
def roundHalfEven (x : ℚ) : Int :=
  let f : Int := Rat.floor x
  let r : ℚ := x - (f : ℚ)
  if r < 1 / 2 then f
  else if 1 / 2 < r then f + 1
  else if f % 2 = 0 then f else f + 1

/-- Rounding of a rational to `float32`: 24 significant bits, exponents from
-126 (below which the spacing stays `2 ^ (-149)`) to 127, overflow to infinity. -/
def round (q : ℚ) : float32 :=
  if q = 0 then fin 0
  else
    let a : ℚ := if 0 < q then q else -q
    let e : Int := max (floorLog2 a) (-126)
    let ulp : ℚ := pow2 (e - 23)
    let r : ℚ := (roundHalfEven (a / ulp) : ℚ) * ulp
    if pow2 128 ≤ r then (if 0 < q then posInf else negInf)
    else fin (if 0 < q then r else -r)

/-- The conversion `float32(n)` of an unsigned integer. -/
def ofNat (n : Nat) : float32 := round (n : ℚ)

/-- Go's `/` on `float32`. A zero divisor is `+0`. -/
def div : float32 → float32 → float32
  | nan, _ => nan
  | _, nan => nan
  | posInf, posInf => nan
  | posInf, negInf => nan
  | negInf, posInf => nan
  | negInf, negInf => nan
  | posInf, fin b => if 0 ≤ b then posInf else negInf
  | negInf, fin b => if 0 ≤ b then negInf else posInf
  | fin _, posInf => fin 0
  | fin _, negInf => fin 0
  | fin a, fin b =>
    if b = 0 then (if a = 0 then nan else if 0 < a then posInf else negInf)
    else round (a / b)

end float32

/-! ## `cmd/net/http.go`: results and their ordering -/

/-- The `result` struct of `http.go`. -/
structure result where
  ConfigLink : String
  TLS : String
  Delay : Int
  DownloadSpeed : float32
  UploadSpeed : float32
deriving DecidableEq

/-- The type `configResults` (`[]*result`): `Less` and the sort read the
elements only through their fields, so the slice is the list of its elements. -/
abbrev configResults := List result

/-- The body of `configResults.Less` on the two elements it addresses. -/
def result.Less (ri rj : result) : Bool :=
  if decide (ri.Delay < rj.Delay) && float32.ge ri.DownloadSpeed rj.DownloadSpeed
      && float32.ge ri.UploadSpeed rj.UploadSpeed then
    true
  else if ri.Delay = rj.Delay then
    decide (ri.ConfigLink < rj.ConfigLink)
  else
    false

/-- The method `configResults.Len`. -/
def configResults.Len (cResults : configResults) : Nat := cResults.length

/-- The method `configResults.Less(i, j)` for indices in range. -/
def configResults.Less (cResults : configResults) (i j : Fin cResults.length) : Bool :=
  result.Less (cResults.get i) (cResults.get j)

/-- The method `configResults.Swap(i, j)` for indices in range. -/
def configResults.Swap (cResults : configResults) (i j : Fin cResults.length) : configResults :=
  (cResults.set i (cResults.get j)).set j (cResults.get i)

/-! ## `sort.Sort` of the Go standard library -/

section SortPackage

variable {α : Type}

/-- The call `data.Less(i, j)` of the sort package, through the comparison
`less` of the two addressed elements. The sort only passes indices in range. -/
def lessAt (less : α → α → Bool) (data : List α) (i j : Nat) : Bool :=
  match data[i]?, data[j]? with
  | some x, some y => less x y
  | _, _ => false

/-- The call `data.Swap(i, j)` of the sort package. The sort only passes
indices in range. -/
def swapAt (data : List α) (i j : Nat) : List α :=
  match data[i]?, data[j]? with
  | some x, some y => (data.set i y).set j x
  | _, _ => data

/-- The inner loop of `insertionSort`:
`for j := i; j > a && data.Less(j, j-1); j-- { data.Swap(j, j-1) }`. -/
def insertionInner (less : α → α → Bool) (a : Nat) : Nat → List α → List α
  | 0, data => data
  | j + 1, data =>
    if a < j + 1 ∧ lessAt less data (j + 1) j = true then
      insertionInner less a j (swapAt data (j + 1) j)
    else data

/-- The outer loop of `insertionSort`, `for i := a + 1; i < b; i++`, from the
current `i`; `fuel` bounds the number of iterations left. -/
def insertionOuter (less : α → α → Bool) (a b : Nat) : Nat → Nat → List α → List α
  | 0, _, data => data
  | fuel + 1, i, data =>
    if i < b then insertionOuter less a b fuel (i + 1) (insertionInner less a i data)
    else data

/-- The function `insertionSort(data, a, b)` of package `sort`. -/
def insertionSort (less : α → α → Bool) (data : List α) (a b : Nat) : List α :=
  insertionOuter less a b (b - (a + 1)) (a + 1) data

/-- The function `sort.Sort(data)`: nothing to do for `n <= 1`, and
`pdqsort(data, 0, n, limit)` runs `insertionSort(data, 0, n)` as soon as
`n <= 12`. For longer slices the pattern-defeating quicksort of the library is
the parameter `long`. -/
def sortSort (long : List α → List α) (less : α → α → Bool) (data : List α) : List α :=
  let n := data.length
  if n ≤ 1 then data
  else if n ≤ 12 then insertionSort less data 0 n
  else long data

/-- Insertion of `x` into a prefix held in reverse (nearest element first):
what one run of the inner loop of `insertionSort` does to the prefix. -/
def insRev (less : α → α → Bool) (x : α) : List α → List α
  | [] => [x]
  | y :: rp => if less x y = true then y :: insRev less x rp else x :: y :: rp

/-- The comparison `less` is a strict total order on the elements of `l`:
irreflexive, transitive, and any two distinct elements are comparable. -/
structure StrictTotalOn (less : α → α → Bool) (l : List α) : Prop where
  irrefl : ∀ a ∈ l, less a a = false
  trans : ∀ a ∈ l, ∀ b ∈ l, ∀ c ∈ l, less a b = true → less b c = true → less a c = true
  total : ∀ a ∈ l, ∀ b ∈ l, a ≠ b → less a b = true ∨ less b a = true

/-- The contract of the library's sort on the slices `sortSort` hands to it:
the outcome is a rearrangement of the input, in ascending order whenever the
comparison is a strict total order on the elements. -/
def SortsLong (long : List α → List α) (less : α → α → Bool) : Prop :=
  ∀ data : List α, 12 < data.length →
    (long data).Perm data
    ∧ (StrictTotalOn less data → (long data).Pairwise (fun a b => less b a = false))

end SortPackage

/-- The two results agree on speed and delay: the one with the strictly lower
delay has download and upload speeds that are not worse, and with equal delays
the links differ. -/
def result.Agree (a b : result) : Prop :=
  (a.Delay < b.Delay →
      float32.ge a.DownloadSpeed b.DownloadSpeed = true
      ∧ float32.ge a.UploadSpeed b.UploadSpeed = true)
  ∧ (b.Delay < a.Delay →
      float32.ge b.DownloadSpeed a.DownloadSpeed = true
      ∧ float32.ge b.UploadSpeed a.UploadSpeed = true)
  ∧ (a.Delay = b.Delay → a.ConfigLink ≠ b.ConfigLink)

/-- Ascending delay, and ascending link among equal delays. -/
def result.Ascending (a b : result) : Prop :=
  a.Delay < b.Delay ∨ (a.Delay = b.Delay ∧ a.ConfigLink < b.ConfigLink)

/-! ## `cmd/net/http.go`: the batch worker -/

/-- Modelled from the spec: the declaration of `protocol.GeneralConfig`, the
canonical summary record, is not among the sources; the fields are those the
`ConvertToGeneralConfig` methods assign (`Type_` is the field `Type`). -/
structure GeneralConfig where
  Protocol : String := ""
  Address : String := ""
  Aid : String := ""
  Host : String := ""
  ID : String := ""
  Network : String := ""
  Path : String := ""
  Port : String := ""
  Remark : String := ""
  TLS : String := ""
  SNI : String := ""
  ALPN : String := ""
  TlsFingerprint : String := ""
  ServiceName : String := ""
  Mode : String := ""
  Type_ : String := ""
  OrigLink : String := ""
deriving DecidableEq

/-- The package-level flags the batch worker reads: `speedtest` and the
`uint32` `speedtestAmount`. -/
structure Flags where
  speedtest : Bool
  speedtestAmount : Nat

/-- What the collaborators answer for one link: `xray.ParseXrayConfig` (the
parsed protocol through its `ConvertToGeneralConfig()`, or `none` for an
error), `xray.StartXray` (whether an instance was started), `xray.MeasureDelay`
(the delay in milliseconds, or `none` for an error), and the download and the
upload request (the elapsed `time.Since(..).Milliseconds()`, or `none` for an
error). -/
structure Probe where
  parse : Option GeneralConfig
  start : Bool
  delay : Option Int
  download : Option Int
  upload : Option Int

/-- What happened to the engine instance of one worker: whether `StartXray`
returned one, and how many times `instance.Close()` was called on it. -/
structure InstanceLog where
  started : Bool
  closeCalls : Nat
deriving DecidableEq

/-- The expression
`(float32((speedtestAmount*1000)*8) / float32(uint32(elapsed)/1000.0)) / 1000000.0`:
the product wraps in `uint32`, the constant `1000.0` takes the type `uint32`
of its left operand, so the seconds are an integer quotient. -/
def throughput (speedtestAmount : Nat) (elapsed : Int) : float32 :=
  float32.div
    (float32.div
      (float32.ofNat (speedtestAmount * 1000 % 2 ^ 32 * 8 % 2 ^ 32))
      (float32.ofNat ((elapsed % 2 ^ 32).toNat / 1000)))
    (float32.round 1000000)

/-- The tail of the batch worker, from `instance.Close()` to the append to
`confRes` under the lock. -/
def workerFinish (f : Flags) (link : String) (parsed : GeneralConfig) (delay : Int)
    (downloadTime uploadTime : Int) (confRes : configResults) : configResults × InstanceLog :=
  let r : result :=
    { ConfigLink := link
      TLS := parsed.TLS
      Delay := delay
      DownloadSpeed := throughput f.speedtestAmount downloadTime
      UploadSpeed := throughput f.speedtestAmount uploadTime }
  (confRes ++ [r], { started := true, closeCalls := 1 })

/-- The goroutine body of `HttpCmd.Run` for one link (the batch worker), on the
shared slice `confRes`; `downloadTime` and `uploadTime` are declared zero. -/
def worker (f : Flags) (link : String) (p : Probe) (confRes : configResults) :
    configResults × InstanceLog :=
  match p.parse with
  | none => (confRes, { started := false, closeCalls := 0 })
  | some parsed =>
    if p.start = false then (confRes, { started := false, closeCalls := 0 })
    else
      match p.delay with
      | none => (confRes, { started := true, closeCalls := 0 })
      | some delay =>
        if f.speedtest = true then
          match p.download with
          | none => (confRes, { started := true, closeCalls := 0 })
          | some downloadTime =>
            match p.upload with
            | none => (confRes, { started := true, closeCalls := 0 })
            | some uploadTime => workerFinish f link parsed delay downloadTime uploadTime confRes
        else workerFinish f link parsed delay 0 0 confRes

/-- The slice `confRes` after all workers have finished, `sched` being the
links with their collaborators' answers in the order in which the workers took
the lock (or returned early). -/
def collect (f : Flags) (sched : List (String × Probe)) (confRes : configResults) :
    configResults :=
  sched.foldl (fun acc j => (worker f j.1 j.2 acc).1) confRes

/-! ## Link parsing: `vmess.go`, `trojan.go`, `wireguard.go` -/

/-- A Go `error`, by its message. -/
abbrev GoError := String

/-- How a call of a method on a descriptor ends: with a run-time fault (a
panic), or by returning an error value (`none` for `nil`) and leaving the
receiver in `state`. -/
inductive Outcome (σ : Type) where
  | fault : Outcome σ
  | ret (err : Option GoError) (state : σ) : Outcome σ

/-- The function `strings.HasPrefix(s, pre)`. -/
def HasPrefix (s pre : String) : Bool := pre.data.isPrefixOf s.data

/-- The slice expression `s[n:]`, for `n <= len(s)`. -/
def sliceFrom (s : String) (n : Nat) : String := String.mk (s.data.drop n)

/-- The type `url.Userinfo`. -/
structure Userinfo where
  username : String
  password : String
  passwordSet : Bool

/-- The fields of `url.URL` the parsers read. `User` is `none` for a nil
pointer. -/
structure URL where
  User : Option Userinfo
  Host : String
  RawQuery : String
  Fragment : String

/-- The method `(*Userinfo).Username`, which accepts a nil receiver. -/
def Userinfo.Username : Option Userinfo → String
  | none => ""
  | some u => u.username

/-- The method `(*Userinfo).Password`, which accepts a nil receiver. -/
def Userinfo.Password : Option Userinfo → String × Bool
  | none => ("", false)
  | some u => (u.password, u.passwordSet)

/-- The type `url.Values` as `uri.Query()` builds it: a key is absent or bound
to a list of values that is never empty (first value, further values). -/
abbrev Values := String → Option (String × List String)

/-- The method `Values.Get`. -/
def Values.Get (q : Values) (key : String) : String :=
  match q key with
  | some (value, _) => value
  | none => ""

/-- Modelled from the spec: the declaration of `Vmess` is not among the
sources; the fields are those `vmess.go` reads or writes, each held as a
string (`Type_` is the field `Type`). -/
structure Vmess where
  OrigLink : String := ""
  Address : String := ""
  Port : String := ""
  ID : String := ""
  Aid : String := ""
  Security : String := ""
  Remark : String := ""
  Path : String := ""
  TLS : String := ""
  Network : String := ""
  Type_ : String := ""
  Host : String := ""
  SNI : String := ""
  ALPN : String := ""
  TlsFingerprint : String := ""
  AllowInsecure : String := ""
deriving DecidableEq

/-- Modelled from the spec: the declaration of `Trojan` is not among the
sources; the fields are those `trojan.go` reads or writes (`Type_` is the field
`Type`). -/
structure Trojan where
  OrigLink : String := ""
  Password : String := ""
  Address : String := ""
  Port : String := ""
  Remark : String := ""
  HeaderType : String := ""
  Type_ : String := ""
  Path : String := ""
  Host : String := ""
  Security : String := ""
  TlsFingerprint : String := ""
  Flow : String := ""
  ServiceName : String := ""
  Mode : String := ""
  SNI : String := ""
  ALPN : String := ""
  AllowInsecure : String := ""
  PublicKey : String := ""
  ShortIds : String := ""
  SpiderX : String := ""
deriving DecidableEq

/-- Modelled from the spec: the declaration of `Wireguard` is not among the
sources; the fields are those `wireguard.go` reads or writes, `Mtu` being the
`int32` one. -/
structure Wireguard where
  OrigLink : String := ""
  SecretKey : String := ""
  Endpoint : String := ""
  Remark : String := ""
  LocalAddress : String := ""
  PublicKey : String := ""
  PreSharedKey : String := ""
  Mtu : Int := 0
deriving DecidableEq

/-- One struct field as the reflection loops of `Parse` see it: how a value is
stored in it, by the kind of the field (`string`, `int`, `int32`, or a kind the
loop passes over). -/
inductive FieldSetter (σ : Type) where
  | string (set : σ → String → σ) : FieldSetter σ
  | int (set : σ → Int → σ) : FieldSetter σ
  | int32 (set : σ → Int → σ) : FieldSetter σ
  | other : FieldSetter σ

/-- The functions of the Go library and of the packages `protocol` and `utils`
that the parsers call, and the struct declarations they reflect on, as
parameters: the three identifiers, `url.Parse`, `(*Userinfo).String`,
`(*URL).Query` (from the raw query), `net.SplitHostPort` and
`url.PathUnescape` (with all their return values), `utils.IsIPv6`,
`utils.Base64Decode`, `json.Unmarshal` into a `Vmess` (the error and the
receiver as left), `fmt.Sscanf` with `%d` (0 when nothing is scanned), and for
`Trojan` and `Wireguard` the fields in declaration order with their `json`
tags. -/
structure Lib where
  VmessIdentifier : String
  TrojanIdentifier : String
  WireguardIdentifier : String
  urlParse : String → Except GoError URL
  userString : Option Userinfo → String
  parseQuery : String → Values
  splitHostPort : String → String × String × Option GoError
  pathUnescape : String → String × Option GoError
  isIPv6 : String → Bool
  base64Decode : String → Except GoError String
  jsonUnmarshal : String → Vmess → Option GoError × Vmess
  sscanfInt : String → Int
  trojanFields : List (String × FieldSetter Trojan)
  wireguardFields : List (String × FieldSetter Wireguard)

/-- The constructor `NewVmess`. -/
def NewVmess (link : String) : Vmess := { OrigLink := link }

/-- The constructor `NewTrojan`. -/
def NewTrojan (link : String) : Trojan := { OrigLink := link }

/-- The constructor `NewWireguard`. -/
def NewWireguard (link : String) : Wireguard := { OrigLink := link }

/-- The function `method1` of `vmess.go`: base64 of inline JSON after the
first 8 bytes. The slice `link[8:]` faults on a shorter link. -/
def method1 (L : Lib) (v : Vmess) (link : String) : Outcome Vmess :=
  if link.length < 8 then Outcome.fault
  else
    match L.base64Decode (sliceFrom link 8) with
    | Except.error e => Outcome.ret (some e) v
    | Except.ok decoded =>
      match L.jsonUnmarshal decoded v with
      | (some e, v1) => Outcome.ret (some e) v1
      | (none, v1) =>
        if L.isIPv6 v1.Address = true then
          Outcome.ret none { v1 with Address := "[" ++ v1.Address ++ "]" }
        else Outcome.ret none v1

/-- The function `method2` of `vmess.go`, after the second `url.Parse`: the
query-string form. -/
def method2Fill (L : Lib) (v : Vmess) (uri : URL) : Outcome Vmess :=
  let v1 : Vmess := { v with Security := Userinfo.Username uri.User }
  let v2 : Vmess := { v1 with ID := (Userinfo.Password uri.User).1 }
  match L.splitHostPort uri.Host with
  | (host, port, some e) => Outcome.ret (some e) { v2 with Address := host, Port := port }
  | (host, port, none) =>
    let v3 : Vmess := { v2 with Address := host, Port := port }
    let v4 : Vmess :=
      if L.isIPv6 v3.Address = true then { v3 with Address := "[" ++ v3.Address ++ "]" } else v3
    let v5 : Vmess := { v4 with Aid := "0" }
    let queryValues : Values := L.parseQuery uri.RawQuery
    let v6 : Vmess :=
      if queryValues.Get "remarks" ≠ "" then { v5 with Remark := queryValues.Get "remarks" }
      else v5
    let v7 : Vmess :=
      if queryValues.Get "path" ≠ "" then { v6 with Path := queryValues.Get "path" } else v6
    let v8 : Vmess := if queryValues.Get "tls" = "1" then { v7 with TLS := "tls" } else v7
    let v9 : Vmess :=
      if queryValues.Get "obfs" ≠ "" then
        (if queryValues.Get "obfs" = "websocket" then { v8 with Network := "ws", Type_ := "none" }
         else if queryValues.Get "obfs" = "none" then { v8 with Network := "tcp", Type_ := "none" }
         else v8)
      else v8
    let v10 : Vmess :=
      if queryValues.Get "obfsParam" ≠ "" then { v9 with Host := queryValues.Get "obfsParam" }
      else v9
    let v11 : Vmess :=
      if queryValues.Get "peer" ≠ "" then { v10 with SNI := queryValues.Get "peer" }
      else if v10.TLS = "tls" then { v10 with SNI := v10.Host }
      else v10
    Outcome.ret none v11

/-- The function `method2` of `vmess.go`. -/
def method2 (L : Lib) (v : Vmess) (link : String) : Outcome Vmess :=
  match L.urlParse link with
  | Except.error e => Outcome.ret (some e) v
  | Except.ok uri =>
    match L.base64Decode uri.Host with
    | Except.error e => Outcome.ret (some e) v
    | Except.ok decoded =>
      match L.urlParse (L.VmessIdentifier ++ "://" ++ decoded ++ "?" ++ uri.RawQuery) with
      | Except.error e => Outcome.ret (some e) v
      | Except.ok uri2 => method2Fill L v uri2

/-- The defaulting at the end of `Vmess.Parse`: an empty path becomes `/` for
the types `xhttp` and `http` and the networks `ws` and `h2`. -/
def Vmess.defaultPath (v : Vmess) : Vmess :=
  if v.Type_ = "xhttp" ∨ v.Type_ = "http" ∨ v.Network = "ws" ∨ v.Network = "h2" then
    (if v.Path = "" then { v with Path := "/" } else v)
  else v

/-- The method `Vmess.Parse`. The argument `v.OrigLink` of `method2` is read
after `method1` has returned. -/
def Vmess.Parse (L : Lib) (v : Vmess) : Outcome Vmess :=
  if HasPrefix v.OrigLink L.VmessIdentifier = false then
    Outcome.ret (some ("vmess unreconized: " ++ v.OrigLink)) v
  else
    match method1 L v v.OrigLink with
    | Outcome.fault => Outcome.fault
    | Outcome.ret none v1 => Outcome.ret none (Vmess.defaultPath v1)
    | Outcome.ret (some _) v1 =>
      match method2 L v1 v1.OrigLink with
      | Outcome.fault => Outcome.fault
      | Outcome.ret (some e) v2 => Outcome.ret (some e) v2
      | Outcome.ret none v2 => Outcome.ret none (Vmess.defaultPath v2)

/-- The conversion `int32(x)` of an `int64`. -/
def toInt32 (x : Int) : Int := (x + 2 ^ 31) % 2 ^ 32 - 2 ^ 31

/-- The reflection loop of `Trojan.Parse`: for every field whose tag is a key
of the query, the first value is stored, as it is in a `string` field and
scanned with `%d` in an `int` field. -/
def trojanApply (L : Lib) (q : Values) : List (String × FieldSetter Trojan) → Trojan → Trojan
  | [], t => t
  | (tag, s) :: rest, t =>
    match q tag with
    | none => trojanApply L q rest t
    | some (value, _) =>
      match s with
      | FieldSetter.string set => trojanApply L q rest (set t value)
      | FieldSetter.int set => trojanApply L q rest (set t (L.sscanfInt value))
      | _ => trojanApply L q rest t

/-- The defaulting at the end of `Trojan.Parse`. -/
def Trojan.defaults (t : Trojan) : Trojan :=
  let t1 : Trojan :=
    if t.HeaderType = "http" ∨ t.Type_ = "ws" ∨ t.Type_ = "h2" then
      (if t.Path = "" then { t with Path := "/" } else t)
    else t
  let t2 : Trojan := if t1.Type_ = "" then { t1 with Type_ := "tcp" } else t1
  let t3 : Trojan := if t2.Security = "" then { t2 with Security := "tls" } else t2
  if t3.TlsFingerprint = "" then { t3 with TlsFingerprint := "chrome" } else t3

/-- The method `Trojan.Parse`. -/
def Trojan.Parse (L : Lib) (t : Trojan) : Outcome Trojan :=
  if HasPrefix t.OrigLink L.TrojanIdentifier = false then
    Outcome.ret (some ("trojan unreconized: " ++ t.OrigLink)) t
  else
    match L.urlParse t.OrigLink with
    | Except.error e => Outcome.ret (some e) t
    | Except.ok uri =>
      let t1 : Trojan := { t with Password := L.userString uri.User }
      match L.splitHostPort uri.Host with
      | (host, port, some e) => Outcome.ret (some e) { t1 with Address := host, Port := port }
      | (host, port, none) =>
        let t2 : Trojan := { t1 with Address := host, Port := port }
        let t3 : Trojan :=
          if L.isIPv6 t2.Address = true then { t2 with Address := "[" ++ t2.Address ++ "]" }
          else t2
        let t4 : Trojan := trojanApply L (L.parseQuery uri.RawQuery) L.trojanFields t3
        let t5 : Trojan :=
          match L.pathUnescape uri.Fragment with
          | (_, some _) => { t4 with Remark := uri.Fragment }
          | (remark, none) => { t4 with Remark := remark }
        Outcome.ret none (Trojan.defaults t5)

/-- The reflection loop of `Wireguard.Parse`: as for `Trojan`, with the kinds
`string` and `int32`. -/
def wireguardApply (L : Lib) (q : Values) :
    List (String × FieldSetter Wireguard) → Wireguard → Wireguard
  | [], w => w
  | (tag, s) :: rest, w =>
    match q tag with
    | none => wireguardApply L q rest w
    | some (value, _) =>
      match s with
      | FieldSetter.string set => wireguardApply L q rest (set w value)
      | FieldSetter.int32 set => wireguardApply L q rest (set w (toInt32 (L.sscanfInt value)))
      | _ => wireguardApply L q rest w

/-- The method `Wireguard.Parse`. -/
def Wireguard.Parse (L : Lib) (w : Wireguard) : Outcome Wireguard :=
  if HasPrefix w.OrigLink L.WireguardIdentifier = false then
    Outcome.ret (some ("wireguard unreconized: " ++ w.OrigLink)) w
  else
    match L.urlParse w.OrigLink with
    | Except.error e => Outcome.ret (some e) w
    | Except.ok uri =>
      match L.pathUnescape (L.userString uri.User) with
      | (_, some e0) => Outcome.ret (some e0) w
      | (unescapedSecretKey, none) =>
        let w1 : Wireguard := { w with SecretKey := unescapedSecretKey }
        let w2 : Wireguard := { w1 with Endpoint := uri.Host }
        let w3 : Wireguard := wireguardApply L (L.parseQuery uri.RawQuery) L.wireguardFields w2
        let w4 : Wireguard :=
          match L.pathUnescape uri.Fragment with
          | (_, some _) => { w3 with Remark := uri.Fragment }
          | (remark, none) => { w3 with Remark := remark }
        Outcome.ret none w4

/-- A set of collaborators for the examples: the identifiers `vmess`, `trojan`
and `wireguard`; `url.Parse` accepts nothing; `Base64Decode` knows the encoding
`e30=` of `{}`; `json.Unmarshal` accepts the empty object and leaves the
receiver as it is. -/
def sampleLib : Lib where
  VmessIdentifier := "vmess"
  TrojanIdentifier := "trojan"
  WireguardIdentifier := "wireguard"
  urlParse := fun s => Except.error ("parse \"" ++ s ++ "\": invalid URI")
  userString := fun u => Userinfo.Username u
  parseQuery := fun _ _ => none
  splitHostPort := fun s => ("", "", some ("address " ++ s ++ ": missing port in address"))
  pathUnescape := fun s => (s, none)
  isIPv6 := fun _ => false
  base64Decode := fun s =>
    if s = "e30=" then Except.ok "{}" else Except.error "illegal base64 data"
  jsonUnmarshal := fun d v =>
    if d = "{}" then (none, v) else (some "invalid character", v)
  sscanfInt := fun _ => 0
  trojanFields := []
  wireguardFields := []

/-! ## Link parsing: the descriptor before defaulting -/

/-- The address as the parsers store it: an IPv6 literal host between
brackets, any other host as it is. -/
def bracketIPv6 (L : Lib) (h : String) : String :=
  if L.isIPv6 h = true then "[" ++ h ++ "]" else h

/-- The descriptor as `Trojan.Parse` has populated it from the link when it
reaches the defaulting (lines 39 to 78): `uri` is the parsed link, `host` and
`port` the two parts `net.SplitHostPort` returned without an error. -/
def Trojan.populated (L : Lib) (t : Trojan) (uri : URL) (host port : String) : Trojan :=
  let t1 : Trojan := { t with Password := L.userString uri.User }
  let t2 : Trojan := { t1 with Address := host, Port := port }
  let t3 : Trojan :=
    if L.isIPv6 t2.Address = true then { t2 with Address := "[" ++ t2.Address ++ "]" }
    else t2
  let t4 : Trojan := trojanApply L (L.parseQuery uri.RawQuery) L.trojanFields t3
  match L.pathUnescape uri.Fragment with
  | (_, some _) => { t4 with Remark := uri.Fragment }
  | (remark, none) => { t4 with Remark := remark }

/-- Storing a value through the setter leaves the `Address` of a `Trojan`
descriptor as it is. -/
def FieldSetter.KeepsAddress : FieldSetter Trojan → Prop
  | FieldSetter.string set => ∀ (t : Trojan) (value : String), (set t value).Address = t.Address
  | FieldSetter.int set => ∀ (t : Trojan) (n : Int), (set t n).Address = t.Address
  | _ => True

/-- The query `q` names no field that holds the address: every field of the
table whose tag is a key of `q` keeps `Address`. -/
def QueryKeepsAddress (fields : List (String × FieldSetter Trojan)) (q : Values) : Prop :=
  ∀ e ∈ fields, q e.1 ≠ none → e.2.KeepsAddress

/-- A field table for the examples: the string fields of `Trojan` a query can
name, under the keys usual in trojan links. -/
def demoFields : List (String × FieldSetter Trojan) :=
  [("flow", FieldSetter.string (fun t value => { t with Flow := value })),
   ("security", FieldSetter.string (fun t value => { t with Security := value })),
   ("sni", FieldSetter.string (fun t value => { t with SNI := value })),
   ("alpn", FieldSetter.string (fun t value => { t with ALPN := value })),
   ("fp", FieldSetter.string (fun t value => { t with TlsFingerprint := value })),
   ("type", FieldSetter.string (fun t value => { t with Type_ := value })),
   ("headerType", FieldSetter.string (fun t value => { t with HeaderType := value })),
   ("host", FieldSetter.string (fun t value => { t with Host := value })),
   ("path", FieldSetter.string (fun t value => { t with Path := value })),
   ("serviceName", FieldSetter.string (fun t value => { t with ServiceName := value })),
   ("mode", FieldSetter.string (fun t value => { t with Mode := value })),
   ("pbk", FieldSetter.string (fun t value => { t with PublicKey := value })),
   ("sid", FieldSetter.string (fun t value => { t with ShortIds := value })),
   ("spx", FieldSetter.string (fun t value => { t with SpiderX := value })),
   ("allowInsecure", FieldSetter.string (fun t value => { t with AllowInsecure := value }))]

/-- A query of the examples, from its pairs of key and value. -/
def demoQuery (pairs : List (String × String)) : Values :=
  fun key => (pairs.lookup key).map (fun value => (value, []))

/-- A set of collaborators for the examples, which decodes a few links:
`url.Parse` knows four trojan links, `net.SplitHostPort` the hosts `host:443`
and `[::1]:443`, `(*URL).Query` the queries of those links, `utils.IsIPv6`
the literal `::1`; `Base64Decode` and `json.Unmarshal` know the encodings of
two JSON objects, one with the address `::1`, one with the network `ws`. -/
def demoLib : Lib where
  VmessIdentifier := "vmess"
  TrojanIdentifier := "trojan"
  WireguardIdentifier := "wireguard"
  urlParse := fun s =>
    if s = "trojan://pw@host:443" then
      Except.ok ⟨some ⟨"pw", "", false⟩, "host:443", "", ""⟩
    else if s = "trojan://pw@host:443?type=ws&security=reality&fp=firefox&path=/x" then
      Except.ok ⟨some ⟨"pw", "", false⟩, "host:443",
        "type=ws&security=reality&fp=firefox&path=/x", ""⟩
    else if s = "trojan://pw@host:443?type=http" then
      Except.ok ⟨some ⟨"pw", "", false⟩, "host:443", "type=http", ""⟩
    else if s = "trojan://pw@host:443?type=ws" then
      Except.ok ⟨some ⟨"pw", "", false⟩, "host:443", "type=ws", ""⟩
    else if s = "trojan://pw@[::1]:443" then
      Except.ok ⟨some ⟨"pw", "", false⟩, "[::1]:443", "", ""⟩
    else Except.error ("parse \"" ++ s ++ "\": invalid URI")
  userString := fun u => Userinfo.Username u
  parseQuery := fun raw =>
    if raw = "type=ws&security=reality&fp=firefox&path=/x" then
      demoQuery [("type", "ws"), ("security", "reality"), ("fp", "firefox"), ("path", "/x")]
    else if raw = "type=http" then demoQuery [("type", "http")]
    else if raw = "type=ws" then demoQuery [("type", "ws")]
    else demoQuery []
  splitHostPort := fun s =>
    if s = "host:443" then ("host", "443", none)
    else if s = "[::1]:443" then ("::1", "443", none)
    else ("", "", some ("address " ++ s ++ ": missing port in address"))
  pathUnescape := fun s => (s, none)
  isIPv6 := fun s => decide (s = "::1")
  base64Decode := fun s =>
    if s = "eyJhZGQiOiI6OjEifQ==" then Except.ok "\x7b\"add\":\"::1\"\x7d"
    else if s = "eyJuZXQiOiJ3cyJ9" then Except.ok "\x7b\"net\":\"ws\"\x7d"
    else Except.error "illegal base64 data"
  jsonUnmarshal := fun d v =>
    if d = "\x7b\"add\":\"::1\"\x7d" then (none, { v with Address := "::1" })
    else if d = "\x7b\"net\":\"ws\"\x7d" then (none, { v with Network := "ws" })
    else (some "invalid character", v)
  sscanfInt := fun _ => 0
  trojanFields := demoFields
  wireguardFields := []

/-- A set of collaborators for the example of a query that names the address:
as `demoLib`, with the `Address` field of `Trojan` in the field table under the
tag `address`, and with `url.Parse` and `(*URL).Query` knowing the link
`trojan://pw@[::1]:443?address=evil` and its query. -/
def addressLib : Lib :=
  { demoLib with
    urlParse := fun s =>
      if s = "trojan://pw@[::1]:443?address=evil" then
        Except.ok ⟨some ⟨"pw", "", false⟩, "[::1]:443", "address=evil", ""⟩
      else demoLib.urlParse s
    parseQuery := fun raw =>
      if raw = "address=evil" then demoQuery [("address", "evil")]
      else demoLib.parseQuery raw
    trojanFields :=
      ("address", FieldSetter.string (fun t value => { t with Address := value }))
        :: demoFields }

/-- The step of `method2` on the query key `remarks`. -/
def method2Remarks (q : Values) (v : Vmess) : Vmess :=
  if q.Get "remarks" ≠ "" then { v with Remark := q.Get "remarks" } else v

/-- The step of `method2` on the query key `path`. -/
def method2Path (q : Values) (v : Vmess) : Vmess :=
  if q.Get "path" ≠ "" then { v with Path := q.Get "path" } else v

/-- The step of `method2` on the query key `tls`. -/
def method2Tls (q : Values) (v : Vmess) : Vmess :=
  if q.Get "tls" = "1" then { v with TLS := "tls" } else v

/-- The step of `method2` on the query key `obfs`. -/
def method2Obfs (q : Values) (v : Vmess) : Vmess :=
  if q.Get "obfs" ≠ "" then
    (if q.Get "obfs" = "websocket" then { v with Network := "ws", Type_ := "none" }
     else if q.Get "obfs" = "none" then { v with Network := "tcp", Type_ := "none" }
     else v)
  else v

/-- The step of `method2` on the query key `obfsParam`. -/
def method2ObfsParam (q : Values) (v : Vmess) : Vmess :=
  if q.Get "obfsParam" ≠ "" then { v with Host := q.Get "obfsParam" } else v

/-- The step of `method2` on the query key `peer`. -/
def method2Peer (q : Values) (v : Vmess) : Vmess :=
  if q.Get "peer" ≠ "" then { v with SNI := q.Get "peer" }
  else if v.TLS = "tls" then { v with SNI := v.Host }
  else v

/-- The descriptor `method2` returns without an error, from the parsed link
`uri` and the two parts `host` and `port` of its host: the steps of
`method2Fill` one after the other. -/
def method2Filled (L : Lib) (v : Vmess) (uri : URL) (host port : String) : Vmess :=
  method2Peer (L.parseQuery uri.RawQuery)
    (method2ObfsParam (L.parseQuery uri.RawQuery)
      (method2Obfs (L.parseQuery uri.RawQuery)
        (method2Tls (L.parseQuery uri.RawQuery)
          (method2Path (L.parseQuery uri.RawQuery)
            (method2Remarks (L.parseQuery uri.RawQuery)
              { v with
                Security := Userinfo.Username uri.User
                ID := (Userinfo.Password uri.User).1
                Address := bracketIPv6 L host
                Port := port
                Aid := "0" })))))

/-! ## The summary record: `ConvertToGeneralConfig` -/

/-- The method `Trojan.ConvertToGeneralConfig`. It assigns to no field of the
receiver. -/
def Trojan.ConvertToGeneralConfig (t : Trojan) : GeneralConfig :=
  { Protocol := "trojan"
    Address := t.Address
    Host := t.Host
    ID := t.Password
    Path := t.Path
    Port := t.Port
    Remark := t.Remark
    SNI := t.SNI
    ALPN := t.ALPN
    TLS := if t.Security = "" then "none" else t.Security
    TlsFingerprint := t.TlsFingerprint
    ServiceName := t.ServiceName
    Mode := t.Mode
    Type_ := t.Type_
    OrigLink := t.OrigLink }

/-- The method `Vmess.ConvertToGeneralConfig`, statement by statement: the
`if`/`else` on `v.TLS` is followed by the assignment `g.TLS = v.TLS`. The
`%v` renderings of `Aid` and `Port` are the strings themselves. It assigns to
no field of the receiver. -/
def Vmess.ConvertToGeneralConfig (v : Vmess) : GeneralConfig :=
  let g0 : GeneralConfig :=
    { Protocol := "vmess"
      Address := v.Address
      Aid := v.Aid
      Host := v.Host
      ID := v.ID
      Network := v.Network
      Path := v.Path
      Port := v.Port
      Remark := v.Remark }
  let g1 : GeneralConfig :=
    if v.TLS = "" then { g0 with TLS := "none" } else { g0 with TLS := v.TLS }
  let g2 : GeneralConfig := { g1 with TLS := v.TLS }
  { g2 with
    SNI := v.SNI
    ALPN := v.ALPN
    TlsFingerprint := v.TlsFingerprint
    Type_ := v.Type_
    OrigLink := v.OrigLink }

/-- The method `Wireguard.ConvertToGeneralConfig`: the protocol and the
address are the only fields it assigns. It assigns to no field of the
receiver. -/
def Wireguard.ConvertToGeneralConfig (w : Wireguard) : GeneralConfig :=
  { Protocol := "wireguard"
    Address := w.Endpoint }

/-! ## Library functions of the builders -/

/-- The loop of `strings.Split` for a non-empty separator: `acc` holds the
current piece in reverse, `fuel` bounds the number of steps. -/
def splitAux (sep : List Char) : Nat → List Char → List Char → List String
  | 0, acc, _ => [String.mk acc.reverse]
  | _ + 1, acc, [] => [String.mk acc.reverse]
  | fuel + 1, acc, c :: rest =>
    if sep.isPrefixOf (c :: rest) = true then
      String.mk acc.reverse :: splitAux sep fuel [] ((c :: rest).drop sep.length)
    else splitAux sep fuel (c :: acc) rest

/-- The function `strings.Split(s, sep)`; the builders only pass the
separator `,` (an empty separator cuts after every character). -/
def Split (s sep : String) : List String :=
  if sep = "" then s.data.map (fun c => String.mk [c])
  else splitAux sep.data (s.length + 1) [] s.data

/-- The value of a non-empty string of decimal digits, `none` for any other
string. -/
def digitsValue : List Char → Option Nat
  | [] => none
  | cs =>
    cs.foldl
      (fun acc c =>
        match acc with
        | none => none
        | some n => if c.isDigit = true then some (n * 10 + (c.toNat - 48)) else none)
      (some 0)

/-- The function `strconv.Atoi`: an optional sign and decimal digits; 0 with a
syntax error for anything else, and the nearest `int64` with a range error for
a value out of range. -/
def Atoi (s : String) : Int × Option GoError :=
  let syntaxError : GoError := "strconv.Atoi: parsing \"" ++ s ++ "\": invalid syntax"
  let rangeError : GoError := "strconv.Atoi: parsing \"" ++ s ++ "\": value out of range"
  match s.data with
  | '-' :: ds =>
    match digitsValue ds with
    | none => (0, some syntaxError)
    | some n => if 2 ^ 63 < n then (-(2 ^ 63 : Int), some rangeError) else (-(n : Int), none)
  | '+' :: ds =>
    match digitsValue ds with
    | none => (0, some syntaxError)
    | some n => if 2 ^ 63 ≤ n then ((2 ^ 63 : Int) - 1, some rangeError) else ((n : Int), none)
  | ds =>
    match digitsValue ds with
    | none => (0, some syntaxError)
    | some n => if 2 ^ 63 ≤ n then ((2 ^ 63 : Int) - 1, some rangeError) else ((n : Int), none)

/-- The statement `if len(s) > 0 { if s[0] == '/' { s = s[1:] } }` of the
`grpc` cases, as the new value of `s`. -/
def stripSlash (s : String) : String :=
  if 0 < s.length then (if s.data.head? = some '/' then sliceFrom s 1 else s) else s

/-- What a builder method returns and leaves: the configuration (`none` for a
nil pointer), the error (`none` for `nil`) and the receiver. -/
structure Built (ω σ : Type) where
  out : Option ω
  err : Option GoError
  state : σ

/-- The user agent both builders put into the request headers. -/
def defaultUserAgent : String :=
  "Mozilla/5.0 (Windows NT 10.0; Win64; x64) AppleWebKit/537.36 (KHTML, like Gecko) Chrome/92.0.4515.131 Safari/537.36"

/-! ## `trojan.go`: the outbound options -/

/-- The fields of `option.OutboundUTLSOptions` the builder sets. -/
structure OutboundUTLSOptions where
  Enabled : Bool := false
  Fingerprint : String := ""
deriving DecidableEq

/-- The fields of `option.OutboundRealityOptions` the builder sets. -/
structure OutboundRealityOptions where
  Enabled : Bool := false
  PublicKey : String := ""
  ShortID : String := ""
deriving DecidableEq

/-- The fields of `option.OutboundTLSOptions` the builder sets; `UTLS` and
`Reality` are pointers, `none` for nil. -/
structure OutboundTLSOptions where
  Enabled : Bool := false
  ServerName : String := ""
  ALPN : List String := []
  UTLS : Option OutboundUTLSOptions := none
  Insecure : Bool := false
  Reality : Option OutboundRealityOptions := none
deriving DecidableEq

/-- The type `option.V2RayWebsocketOptions`; the header map is the list of
its entries. -/
structure V2RayWebsocketOptions where
  Path : String := ""
  Headers : List (String × List String) := []
  MaxEarlyData : Nat := 0
  EarlyDataHeaderName : String := ""
deriving DecidableEq

/-- The type `option.V2RayHTTPOptions`, with the fields the builder leaves nil
or zero left out. -/
structure V2RayHTTPOptions where
  Host : List String := []
  Path : String := ""
  Method : String := ""
deriving DecidableEq

/-- The type `option.V2RayHTTPUpgradeOptions`, without its nil headers. -/
structure V2RayHTTPUpgradeOptions where
  Host : String := ""
  Path : String := ""
deriving DecidableEq

/-- The field of `option.V2RayGRPCOptions` the builder sets. -/
structure V2RayGRPCOptions where
  ServiceName : String := ""
deriving DecidableEq

/-- The type `option.V2RayTransportOptions`: the transport type and one value
per kind of transport, zero unless the builder sets it (`QUICOptions` has no
field to set). -/
structure V2RayTransportOptions where
  Type_ : String := ""
  WebsocketOptions : V2RayWebsocketOptions := {}
  HTTPOptions : V2RayHTTPOptions := {}
  HTTPUpgradeOptions : V2RayHTTPUpgradeOptions := {}
  GRPCOptions : V2RayGRPCOptions := {}
deriving DecidableEq

/-- The fields of `option.TrojanOutboundOptions` the builder sets; the port is
a `uint16`, `TLS` a pointer that is never nil. -/
structure TrojanOutboundOptions where
  Server : String := ""
  ServerPort : Nat := 0
  Password : String := ""
  Transport : V2RayTransportOptions := {}
  TLS : OutboundTLSOptions := {}
deriving DecidableEq

/-- The fields of `option.Outbound` the builder sets. -/
structure Outbound where
  Type_ : String := ""
  TrojanOptions : TrojanOutboundOptions := {}
deriving DecidableEq

/-- The `switch t.Type` of `CraftOutboundOptions`, as the transport block it
fills; `serviceName` is the service name after the `grpc` case has stripped
it. -/
def Trojan.transport (t : Trojan) (serviceName : String) : V2RayTransportOptions :=
  if t.Type_ = "ws" then
    { Type_ := t.Type_
      WebsocketOptions :=
        { Path := t.Path
          Headers := [("host", [t.Host]), ("User-Agent", [defaultUserAgent])]
          MaxEarlyData := 0
          EarlyDataHeaderName := "" } }
  else if t.Type_ = "http" then
    { Type_ := t.Type_
      HTTPOptions :=
        { Host := if t.Host ≠ "" then Split t.Host "," else []
          Path := t.Path
          Method := "GET" } }
  else if t.Type_ = "httpupgrade" then
    { Type_ := t.Type_
      HTTPUpgradeOptions := { Host := t.Host, Path := t.Path } }
  else if t.Type_ = "grpc" then
    { Type_ := t.Type_
      GRPCOptions := { ServiceName := serviceName } }
  else { Type_ := t.Type_ }

/-- The method `Trojan.CraftOutboundOptions`. The error of `strconv.Atoi` is
dropped, the port converted to `uint16`; the `grpc` case assigns to the
receiver's `ServiceName`. -/
def Trojan.CraftOutboundOptions (t : Trojan) (allowInsecure : Bool) : Built Outbound Trojan :=
  let port : Int := (Atoi t.Port).1
  let secured : Bool := decide (t.Security = "tls" ∨ t.Security = "reality")
  let alpn : List String :=
    if secured = true then
      (if t.ALPN ≠ "" ∧ t.ALPN ≠ "none" then Split t.ALPN "," else ["http/1.1"])
    else []
  let fingerprint : String :=
    if secured = true then
      (if t.TlsFingerprint ≠ "" ∧ t.TlsFingerprint ≠ "none" then t.TlsFingerprint else "chrome")
    else ""
  let insecure : Bool :=
    if secured = true then
      (if t.AllowInsecure ≠ "" then
        (if t.AllowInsecure = "1" ∨ t.AllowInsecure = "true" then true else allowInsecure)
       else allowInsecure)
    else allowInsecure
  let t1 : Trojan :=
    if t.Type_ = "grpc" then { t with ServiceName := stripSlash t.ServiceName } else t
  let opts : TrojanOutboundOptions :=
    { Server := t1.Address
      ServerPort := (port % 2 ^ 16).toNat
      Password := t1.Password
      Transport := Trojan.transport t t1.ServiceName
      TLS :=
        { Enabled := secured
          ServerName := t1.SNI
          ALPN := alpn
          UTLS := some { Enabled := true, Fingerprint := fingerprint }
          Insecure := insecure
          Reality :=
            if t1.Security = "reality" then
              some { Enabled := true, PublicKey := t1.PublicKey, ShortID := t1.ShortIds }
            else none } }
  { out := some { Type_ := "trojan", TrojanOptions := opts }
    err := none
    state := t1 }

/-! ## `vmess.go`: the outbound detour configuration -/

/-- The type `conf.TCPConfig`, with its raw JSON header. -/
structure TCPConfig where
  HeaderConfig : String := ""
deriving DecidableEq

/-- The type `conf.KCPConfig`, with its raw JSON header. -/
structure KCPConfig where
  HeaderConfig : String := ""
deriving DecidableEq

/-- The type `conf.WebSocketConfig`; the header map is the list of its
entries. -/
structure WebSocketConfig where
  Path : String := ""
  Headers : List (String × String) := []
deriving DecidableEq

/-- The fields of `conf.SplitHTTPConfig` the builder sets. -/
structure SplitHTTPConfig where
  Host : String := ""
  Path : String := ""
  Mode : String := ""
deriving DecidableEq

/-- The fields of `conf.HttpUpgradeConfig` the builder sets. -/
structure HttpUpgradeConfig where
  Host : String := ""
  Path : String := ""
deriving DecidableEq

/-- The fields of `conf.GRPCConfig` the builder sets. -/
structure GRPCConfig where
  InitialWindowsSize : Int := 0
  HealthCheckTimeout : Int := 0
  MultiMode : Bool := false
  IdleTimeout : Int := 0
  Authority : String := ""
  ServiceName : String := ""
deriving DecidableEq

/-- The fields of `conf.TLSConfig` the builder sets; `ALPN` is a pointer,
`none` for nil. -/
structure TLSConfig where
  Fingerprint : String := ""
  Insecure : Bool := false
  ServerName : String := ""
  ALPN : Option (List String) := none
deriving DecidableEq

/-- The fields of `conf.StreamConfig` the builder sets; every settings block is
a pointer, `none` for nil. -/
structure StreamConfig where
  Network : String := ""
  Security : String := ""
  TCPSettings : Option TCPConfig := none
  KCPSettings : Option KCPConfig := none
  WSSettings : Option WebSocketConfig := none
  XHTTPSettings : Option SplitHTTPConfig := none
  HTTPUPGRADESettings : Option HttpUpgradeConfig := none
  SplitHTTPSettings : Option SplitHTTPConfig := none
  GRPCSettings : Option GRPCConfig := none
  TLSSettings : Option TLSConfig := none
deriving DecidableEq

/-- The fields of `conf.OutboundDetourConfig` the builder sets; the settings
are raw JSON. -/
structure OutboundDetourConfig where
  Tag : String := ""
  Protocol : String := ""
  StreamSetting : Option StreamConfig := none
  Settings : Option String := none
deriving DecidableEq

/-- The raw header of the `tcp` case for a type other than `none`: the format
string of the source with the two marshalled lists in place of `%s`. -/
def tcpHttpHeader (pathb hostb : String) : String :=
  "\n\t\t\t\x7b\n\t\t\t\t\"type\": \"http\",\n\t\t\t\t\"request\": \x7b\n\t\t\t\t\t\"path\": "
    ++ pathb
    ++ ",\n\t\t\t\t\t\"headers\": \x7b\n\t\t\t\t\t\t\"Host\": "
    ++ hostb
    ++ ",\n\t\t\t\t\t\t\"User-Agent\": \"" ++ defaultUserAgent
    ++ "\"\n\t\t\t\t\t\x7d\n\t\t\t\t\x7d\n\t\t\t\x7d\n\t\t\t"

/-- The raw settings of the outbound: the format string of the source with
address, port, id, alter id and security in place of the verbs. -/
def vnextSettings (address port id aid security : String) : String :=
  "\x7b\n  \"vnext\": [\n    \x7b\n      \"address\": \"" ++ address
    ++ "\",\n      \"port\": " ++ port
    ++ ",\n      \"users\": [\n        \x7b\n          \"id\": \"" ++ id
    ++ "\",\n          \"alterId\": " ++ aid
    ++ ",\n          \"security\": \"" ++ security
    ++ "\"\n        \x7d\n      ]\n    \x7d\n  ]\n\x7d"

/-- The `switch v.Network` of `BuildOutboundDetourConfig`, as the stream
configuration it fills from `s`; `path` is the path after the `grpc` case has
stripped it, `jsonMarshal` the function `json.Marshal` on a list of strings. -/
def Vmess.stream (jsonMarshal : List String → String) (v : Vmess) (path : String)
    (s : StreamConfig) : StreamConfig :=
  if v.Network = "tcp" then
    { s with
      TCPSettings := some
        { HeaderConfig :=
            if v.Type_ = "" ∨ v.Type_ = "none" then "\x7b \"type\": \"none\" \x7d"
            else tcpHttpHeader (jsonMarshal (Split v.Path ",")) (jsonMarshal (Split v.Host ",")) } }
  else if v.Network = "kcp" then
    { s with KCPSettings := some { HeaderConfig := "\x7b \"type\": \"" ++ v.Type_ ++ "\" \x7d" } }
  else if v.Network = "ws" then
    { s with
      WSSettings := some
        { Path := v.Path
          Headers := [("Host", v.Host), ("User-Agent", defaultUserAgent)] } }
  else if v.Network = "xhttp" then
    { s with
      XHTTPSettings := some
        { Host := v.Host, Path := v.Path, Mode := if v.Type_ = "" then "auto" else v.Type_ } }
  else if v.Network = "httpupgrade" then
    { s with HTTPUPGRADESettings := some { Host := v.Host, Path := v.Path } }
  else if v.Network = "splithttp" then
    { s with SplitHTTPSettings := some { Host := v.Host, Path := v.Path } }
  else if v.Network = "grpc" then
    { s with
      GRPCSettings := some
        { InitialWindowsSize := 65536
          HealthCheckTimeout := 20
          MultiMode := decide (v.Type_ ≠ "gun")
          IdleTimeout := 60
          Authority := v.Host
          ServiceName := path } }
  else s

/-- The method `Vmess.BuildOutboundDetourConfig`. The `grpc` case assigns to
the receiver's `Path`, the TLS block to its `TlsFingerprint`. -/
def Vmess.BuildOutboundDetourConfig (jsonMarshal : List String → String) (v : Vmess)
    (allowInsecure : Bool) : Built OutboundDetourConfig Vmess :=
  let s0 : StreamConfig := { Network := v.Network, Security := v.TLS }
  let v1 : Vmess := if v.Network = "grpc" then { v with Path := stripSlash v.Path } else v
  let s1 : StreamConfig := Vmess.stream jsonMarshal v v1.Path s0
  let v2 : Vmess :=
    if v1.TLS = "tls" then
      (if v1.TlsFingerprint = "" then { v1 with TlsFingerprint := "chrome" } else v1)
    else v1
  let s2 : StreamConfig :=
    if v1.TLS = "tls" then
      { s1 with
        TLSSettings := some
          { Fingerprint := v2.TlsFingerprint
            Insecure := allowInsecure
            ServerName := if v2.SNI ≠ "" then v2.SNI else v2.Host
            ALPN := if v2.ALPN ≠ "" then some [v2.ALPN] else none } }
    else s1
  { out := some
      { Tag := "proxy"
        Protocol := "vmess"
        StreamSetting := some s2
        Settings := some (vnextSettings v2.Address v2.Port v2.ID v2.Aid v2.Security) }
    err := none
    state := v2 }

/-- A rendering of a list of strings as a JSON array for the examples, without
escaping. -/
def demoMarshal (l : List String) : String :=
  "[" ++ ",".intercalate (l.map (fun s => "\"" ++ s ++ "\"")) ++ "]"

/-! ## `http.go`: the txt output -/

/-- The function `strings.Join`. -/
def Join : List String → String → String
  | [], _ => ""
  | [a], _ => a
  | a :: b :: rest, sep => a ++ sep ++ Join (b :: rest) sep

/-- The loop `for _, v := range confRes { validConfigs = append(validConfigs, v.ConfigLink) }`
as the new value of the package variable `validConfigs`. -/
def appendLinks (validConfigs : List String) (confRes : configResults) : List String :=
  confRes.foldl (fun acc v => acc ++ [v.ConfigLink]) validConfigs

/-- The bytes the `txt` branch hands to `utils.WriteIntoFile`: `confRes` is the
slice as the optional sort left it, `validConfigs` the package variable before
the loop (`nil` when the command starts). -/
def txtOutput (validConfigs : List String) (confRes : configResults) : String :=
  Join (appendLinks validConfigs confRes) "\n\n"

/-! ## Theorems -/

theorem result.less_eq_true_iff (a b : result) :
    result.Less a b = true ↔
      ((a.Delay < b.Delay
          ∧ float32.ge a.DownloadSpeed b.DownloadSpeed = true
          ∧ float32.ge a.UploadSpeed b.UploadSpeed = true)
        ∨ (a.Delay = b.Delay ∧ a.ConfigLink < b.ConfigLink)) := by
  unfold result.Less
  by_cases h1 : a.Delay < b.Delay
  · have hne : a.Delay ≠ b.Delay := ne_of_lt h1
    by_cases h2 : float32.ge a.DownloadSpeed b.DownloadSpeed = true
    · by_cases h3 : float32.ge a.UploadSpeed b.UploadSpeed = true
      · simp [h1, h2, h3]
      · simp [h1, h2, h3, hne]
    · simp [h1, h2, hne]
  · by_cases h4 : a.Delay = b.Delay
    · simp [h4]
    · simp [h1, h4]

/-- C1: for every result list and all indices `i`, `j` in range, `Less(i, j)` is
true exactly when the delay at `i` is strictly lower and both speeds at `i` are
not lower, or the delays are equal and the link at `i` is lexicographically
smaller; in every other case it is false. -/
theorem less_iff (cResults : configResults) (i j : Fin cResults.length) :
    configResults.Less cResults i j
      = (decide ((cResults.get i).Delay < (cResults.get j).Delay)
          && float32.ge (cResults.get i).DownloadSpeed (cResults.get j).DownloadSpeed
          && float32.ge (cResults.get i).UploadSpeed (cResults.get j).UploadSpeed
        || decide ((cResults.get i).Delay = (cResults.get j).Delay)
          && decide ((cResults.get i).ConfigLink < (cResults.get j).ConfigLink)) := by
  rw [Bool.eq_iff_iff]
  simp only [configResults.Less, result.less_eq_true_iff, Bool.or_eq_true, Bool.and_eq_true,
    decide_eq_true_eq, and_assoc]

/-- C2: `Less` is not transitive: three results `a`, `b`, `c` with `a` of lower
delay than `b` and `c`, `b` and `c` of equal delay ordered by link, and `c` of
higher download speed than `a`, have `Less a b` and `Less b c` but not `Less a c`. -/
theorem less_not_transitive :
    ∃ a b c : result,
      configResults.Less [a, b, c] ⟨0, by simp⟩ ⟨1, by simp⟩ = true
      ∧ configResults.Less [a, b, c] ⟨1, by simp⟩ ⟨2, by simp⟩ = true
      ∧ configResults.Less [a, b, c] ⟨0, by simp⟩ ⟨2, by simp⟩ = false :=
  ⟨⟨"a", "tls", 1, float32.fin 10, float32.fin 10⟩,
   ⟨"b", "tls", 2, float32.fin 5, float32.fin 5⟩,
   ⟨"c", "tls", 2, float32.fin 20, float32.fin 5⟩,
   by norm_num [configResults.Less, result.Less, float32.ge],
   by norm_num [configResults.Less, result.Less, float32.ge]; decide,
   by norm_num [configResults.Less, result.Less, float32.ge]⟩

theorem float32.ge_eq_false_of_lt {x y : float32} (h : float32.lt x y = true) :
    float32.ge x y = false := by
  cases x <;> cases y <;> simp_all [float32.lt, float32.ge]

/-- C3: a result `A` of strictly lower delay than `B` but with a strictly lower
download or upload speed is preferred in neither direction, and sorting
`[A, B]` leaves it as `[A, B]`. -/
theorem less_no_preference (long : List result → List result) (A B : result)
    (hd : A.Delay < B.Delay)
    (hs : float32.lt A.DownloadSpeed B.DownloadSpeed = true
      ∨ float32.lt A.UploadSpeed B.UploadSpeed = true) :
    configResults.Less [A, B] ⟨0, by simp⟩ ⟨1, by simp⟩ = false
    ∧ configResults.Less [A, B] ⟨1, by simp⟩ ⟨0, by simp⟩ = false
    ∧ sortSort long result.Less [A, B] = [A, B] := by
  have hne : A.Delay ≠ B.Delay := ne_of_lt hd
  have hne2 : B.Delay ≠ A.Delay := fun h => hne h.symm
  have hnd : ¬ B.Delay < A.Delay := not_lt.mpr (le_of_lt hd)
  have hAB : result.Less A B = false := by
    rcases hs with h | h
    · simp [result.Less, float32.ge_eq_false_of_lt h, hne]
    · simp [result.Less, float32.ge_eq_false_of_lt h, hne]
  have hBA : result.Less B A = false := by
    simp [result.Less, hnd, hne2]
  refine ⟨by simpa [configResults.Less] using hAB, by simpa [configResults.Less] using hBA, ?_⟩
  simp [sortSort, insertionSort, insertionOuter, insertionInner, lessAt, hBA]

/-- C3, at the results of the specification's scenario: `A` with delay 50,
download 10, upload 5 and `B` with delay 80, download 20, upload 20. -/
theorem less_no_preference_witness :
    configResults.Less
        [⟨"A", "tls", 50, float32.fin 10, float32.fin 5⟩,
         ⟨"B", "tls", 80, float32.fin 20, float32.fin 20⟩] ⟨0, by simp⟩ ⟨1, by simp⟩ = false
    ∧ configResults.Less
        [⟨"A", "tls", 50, float32.fin 10, float32.fin 5⟩,
         ⟨"B", "tls", 80, float32.fin 20, float32.fin 20⟩] ⟨1, by simp⟩ ⟨0, by simp⟩ = false
    ∧ sortSort id result.Less
        [⟨"A", "tls", 50, float32.fin 10, float32.fin 5⟩,
         ⟨"B", "tls", 80, float32.fin 20, float32.fin 20⟩]
      = [⟨"A", "tls", 50, float32.fin 10, float32.fin 5⟩,
         ⟨"B", "tls", 80, float32.fin 20, float32.fin 20⟩] :=
  less_no_preference id ⟨"A", "tls", 50, float32.fin 10, float32.fin 5⟩
    ⟨"B", "tls", 80, float32.fin 20, float32.fin 20⟩ (by decide)
    (Or.inl (by norm_num [float32.lt]))

/-! ### The insertion sort of package `sort` -/

/-- The comparison the sort makes at two indices in range is the method `Less`
of `configResults`. -/
theorem lessAt_eq_Less (cResults : configResults) (i j : Fin cResults.length) :
    lessAt result.Less cResults i j = configResults.Less cResults i j := by
  simp [lessAt, configResults.Less]

/-- The exchange the sort makes at two indices in range is the method `Swap`
of `configResults`. -/
theorem swapAt_eq_Swap (cResults : configResults) (i j : Fin cResults.length) :
    swapAt cResults i j = configResults.Swap cResults i j := by
  simp [swapAt, configResults.Swap]

section SortLemmas

variable {α : Type}

theorem insertionInner_eq (less : α → α → Bool) (x : α) :
    ∀ rp post : List α,
      insertionInner less 0 rp.length (rp.reverse ++ x :: post)
        = (insRev less x rp).reverse ++ post := by
  intro rp
  induction rp with
  | nil => intro post; simp [insertionInner, insRev]
  | cons y rp ih =>
    intro post
    have hdata : (y :: rp).reverse ++ x :: post = rp.reverse ++ y :: x :: post := by simp
    have hlen : rp.reverse.length = rp.length := List.length_reverse rp
    have hx : (rp.reverse ++ y :: x :: post)[rp.length + 1]? = some x := by
      rw [List.getElem?_append_right (by omega)]; simp [hlen]
    have hy : (rp.reverse ++ y :: x :: post)[rp.length]? = some y := by
      rw [List.getElem?_append_right (by omega)]; simp [hlen]
    have hswap : swapAt (rp.reverse ++ y :: x :: post) (rp.length + 1) rp.length
        = rp.reverse ++ x :: y :: post := by
      simp only [swapAt, hx, hy]
      rw [List.set_append_right _ _ (by omega)]
      rw [List.set_append_right _ _ (by simp)]
      simp [hlen]
    rw [hdata]
    simp only [List.length_cons, insertionInner, lessAt, hx, hy, hswap]
    by_cases h : less x y = true
    · simp [h, insRev, ih]
    · simp [h, insRev]

theorem insRev_length (less : α → α → Bool) (x : α) (rp : List α) :
    (insRev less x rp).length = rp.length + 1 := by
  induction rp with
  | nil => simp [insRev]
  | cons y rp ih =>
    by_cases h : less x y = true
    · simp [insRev, h, ih]
    · simp [insRev, h]

theorem insertionOuter_eq (less : α → α → Bool) :
    ∀ rest rp : List α,
      insertionOuter less 0 (rp.length + rest.length) rest.length rp.length (rp.reverse ++ rest)
        = (rest.foldl (fun acc x => insRev less x acc) rp).reverse := by
  intro rest
  induction rest with
  | nil => intro rp; simp [insertionOuter]
  | cons x rest ih =>
    intro rp
    have hlt : rp.length < rp.length + (rest.length + 1) := by omega
    simp only [List.length_cons, insertionOuter, hlt, if_true, List.foldl_cons]
    rw [insertionInner_eq]
    have h := ih (insRev less x rp)
    rw [insRev_length] at h
    have hb : rp.length + 1 + rest.length = rp.length + (rest.length + 1) := by omega
    rw [hb] at h
    exact h

theorem insertionSort_eq (less : α → α → Bool) (data : List α) :
    insertionSort less data 0 data.length
      = (data.foldl (fun acc x => insRev less x acc) []).reverse := by
  cases data with
  | nil => simp [insertionSort, insertionOuter]
  | cons x rest =>
    have h := insertionOuter_eq less rest [x]
    simp only [List.length_cons, List.length_nil, List.reverse_cons, List.reverse_nil,
      List.nil_append, List.singleton_append, Nat.zero_add] at h
    simp only [insertionSort, List.length_cons, List.foldl_cons, insRev]
    have hf : rest.length + 1 - (0 + 1) = rest.length := by omega
    rw [hf]
    have hb : 1 + rest.length = rest.length + 1 := by omega
    rw [hb] at h
    exact h

theorem insRev_perm (less : α → α → Bool) (x : α) (rp : List α) :
    (insRev less x rp).Perm (x :: rp) := by
  induction rp with
  | nil => simp [insRev]
  | cons y rp ih =>
    by_cases h : less x y = true
    · simp only [insRev, h, if_true]
      exact (List.Perm.cons y ih).trans (List.Perm.swap x y rp)
    · simp [insRev, h]

theorem foldl_insRev_perm (less : α → α → Bool) :
    ∀ rest rp : List α,
      (rest.foldl (fun acc x => insRev less x acc) rp).Perm (rest.reverse ++ rp) := by
  intro rest
  induction rest with
  | nil => intro rp; simp
  | cons x rest ih =>
    intro rp
    simp only [List.foldl_cons, List.reverse_cons, List.append_assoc, List.singleton_append]
    exact (ih (insRev less x rp)).trans (List.Perm.append_left _ (insRev_perm less x rp))

theorem StrictTotalOn.asymm {less : α → α → Bool} {l : List α} (h : StrictTotalOn less l)
    {a b : α} (ha : a ∈ l) (hb : b ∈ l) (hab : less a b = true) : less b a = false := by
  cases hba : less b a with
  | false => rfl
  | true =>
    have := h.trans a ha b hb a ha hab hba
    rw [h.irrefl a ha] at this
    exact absurd this (by decide)

theorem StrictTotalOn.negTrans {less : α → α → Bool} {l : List α} (h : StrictTotalOn less l)
    {a b c : α} (ha : a ∈ l) (hb : b ∈ l) (hc : c ∈ l)
    (hab : less a b = false) (hbc : less b c = false) : less a c = false := by
  cases hac : less a c with
  | false => rfl
  | true =>
    by_cases hEq : a = b
    · subst hEq; rw [hac] at hbc; exact absurd hbc (by decide)
    · rcases h.total a ha b hb hEq with h1 | h1
      · rw [h1] at hab; exact absurd hab (by decide)
      · have := h.trans b hb a ha c hc h1 hac
        rw [this] at hbc; exact absurd hbc (by decide)

theorem insRev_sorted {less : α → α → Bool} {l : List α} (h : StrictTotalOn less l)
    {x : α} (hx : x ∈ l) :
    ∀ rp : List α, (∀ y ∈ rp, y ∈ l) → rp.Pairwise (fun u v => less u v = false) →
      (insRev less x rp).Pairwise (fun u v => less u v = false) := by
  intro rp
  induction rp with
  | nil => intro _ _; simp [insRev]
  | cons y rp ih =>
    intro hmem hp
    have hy : y ∈ l := hmem y (List.mem_cons_self y rp)
    have hrp : ∀ z ∈ rp, z ∈ l := fun z hz => hmem z (List.mem_cons_of_mem y hz)
    rw [List.pairwise_cons] at hp
    by_cases hlt : less x y = true
    · simp only [insRev, hlt, if_true]
      rw [List.pairwise_cons]
      refine ⟨?_, ih hrp hp.2⟩
      intro z hz
      rcases (List.Perm.mem_iff (insRev_perm less x rp)).mp hz with hz1 | hz1
      · exact h.asymm hx hy hlt
      · exact hp.1 z (by assumption)
    · have hxy : less x y = false := by
        cases hv : less x y with
        | false => rfl
        | true => exact absurd hv hlt
      rw [show insRev less x (y :: rp) = x :: y :: rp by simp [insRev, hxy]]
      rw [List.pairwise_cons]
      refine ⟨?_, List.pairwise_cons.mpr hp⟩
      intro z hz
      rcases List.mem_cons.mp hz with hz1 | hz1
      · rw [hz1]; exact hxy
      · exact h.negTrans hx hy (hrp z hz1) hxy (hp.1 z hz1)

theorem foldl_insRev_sorted {less : α → α → Bool} {l : List α} (h : StrictTotalOn less l) :
    ∀ rest rp : List α, (∀ y ∈ rest, y ∈ l) → (∀ y ∈ rp, y ∈ l) →
      rp.Pairwise (fun u v => less u v = false) →
      (rest.foldl (fun acc x => insRev less x acc) rp).Pairwise (fun u v => less u v = false) := by
  intro rest
  induction rest with
  | nil => intro rp _ _ hp; simpa using hp
  | cons x rest ih =>
    intro rp hrest hrp hp
    have hx : x ∈ l := hrest x (List.mem_cons_self x rest)
    simp only [List.foldl_cons]
    apply ih
    · exact fun y hy => hrest y (List.mem_cons_of_mem x hy)
    · intro y hy
      rcases (List.Perm.mem_iff (insRev_perm less x rp)).mp hy with hy1 | hy1
      · exact hx
      · exact hrp y (by assumption)
    · exact insRev_sorted h hx rp hrp hp

end SortLemmas

theorem sortSort_perm {α : Type} (long : List α → List α) (less : α → α → Bool)
    (hlong : SortsLong long less) (data : List α) :
    (sortSort long less data).Perm data := by
  unfold sortSort
  by_cases h1 : data.length ≤ 1
  · simp [h1]
  · by_cases h12 : data.length ≤ 12
    · simp only [h1, h12, if_true, if_false]
      rw [insertionSort_eq]
      have := foldl_insRev_perm less data []
      rw [List.append_nil] at this
      exact (List.reverse_perm _).trans (this.trans (List.reverse_perm _))
    · simp only [h1, h12, if_false]
      exact (hlong data (by omega)).1

theorem sortSort_sorted {α : Type} (long : List α → List α) (less : α → α → Bool)
    (hlong : SortsLong long less) (data : List α) (h : StrictTotalOn less data) :
    (sortSort long less data).Pairwise (fun a b => less b a = false) := by
  unfold sortSort
  by_cases h1 : data.length ≤ 1
  · simp only [h1, if_true]
    match data, h1 with
    | [], _ => exact List.Pairwise.nil
    | [x], _ => exact List.pairwise_singleton _ x
    | _ :: _ :: _, h1 => simp at h1
  · by_cases h12 : data.length ≤ 12
    · simp only [h1, h12, if_true, if_false]
      rw [insertionSort_eq, List.pairwise_reverse]
      exact foldl_insRev_sorted h data [] (fun y hy => hy) (by simp) List.Pairwise.nil
    · simp only [h1, h12, if_false]
      exact (hlong data (by omega)).2 h

theorem insertionSort_sortsLong {α : Type} (less : α → α → Bool) :
    SortsLong (fun data => insertionSort less data 0 data.length) less := by
  intro data _
  constructor
  · show (insertionSort less data 0 data.length).Perm data
    rw [insertionSort_eq]
    have := foldl_insRev_perm less data []
    rw [List.append_nil] at this
    exact (List.reverse_perm _).trans (this.trans (List.reverse_perm _))
  · intro h
    show (insertionSort less data 0 data.length).Pairwise (fun a b => less b a = false)
    rw [insertionSort_eq, List.pairwise_reverse]
    exact foldl_insRev_sorted h data [] (fun y hy => hy) (by simp) List.Pairwise.nil

theorem result.agree_symm : Symmetric result.Agree := by
  intro a b h
  exact ⟨h.2.1, h.1, fun e hl => h.2.2 e.symm hl.symm⟩

theorem result.ne_of_agree {a b : result} (h : result.Agree a b) : a ≠ b := by
  intro e
  subst e
  exact h.2.2 rfl rfl

theorem result.strictTotalOn_of_agree (l : configResults) (h : l.Pairwise result.Agree) :
    StrictTotalOn result.Less l := by
  have hag : ∀ a ∈ l, ∀ b ∈ l, a ≠ b → result.Agree a b :=
    fun a ha b hb hab => h.forall result.agree_symm ha hb hab
  have hlow : ∀ a ∈ l, ∀ c ∈ l, a.Delay < c.Delay → result.Less a c = true := by
    intro a ha c hc hd
    have hne : a ≠ c := by
      intro e
      rw [e] at hd
      exact lt_irrefl _ hd
    have := (hag a ha c hc hne).1 hd
    exact (result.less_eq_true_iff a c).mpr (Or.inl ⟨hd, this.1, this.2⟩)
  refine ⟨?_, ?_, ?_⟩
  · intro a _
    cases hv : result.Less a a with
    | false => rfl
    | true =>
      rcases (result.less_eq_true_iff a a).mp hv with h1 | h1
      · exact absurd h1.1 (lt_irrefl _)
      · exact absurd h1.2 (lt_irrefl _)
  · intro a ha b _ c hc hab hbc
    rcases (result.less_eq_true_iff a b).mp hab with h1 | h1
    · rcases (result.less_eq_true_iff b c).mp hbc with h2 | h2
      · exact hlow a ha c hc (lt_trans h1.1 h2.1)
      · exact hlow a ha c hc (by rw [← h2.1]; exact h1.1)
    · rcases (result.less_eq_true_iff b c).mp hbc with h2 | h2
      · exact hlow a ha c hc (by rw [h1.1]; exact h2.1)
      · exact (result.less_eq_true_iff a c).mpr
          (Or.inr ⟨h1.1.trans h2.1, lt_trans h1.2 h2.2⟩)
  · intro a ha b hb hab
    rcases lt_trichotomy a.Delay b.Delay with hd | hd | hd
    · exact Or.inl (hlow a ha b hb hd)
    · have hl := (hag a ha b hb hab).2.2 hd
      rcases lt_trichotomy a.ConfigLink b.ConfigLink with hs | hs | hs
      · exact Or.inl ((result.less_eq_true_iff a b).mpr (Or.inr ⟨hd, hs⟩))
      · exact absurd hs hl
      · exact Or.inr ((result.less_eq_true_iff b a).mpr (Or.inr ⟨hd.symm, hs⟩))
    · exact Or.inr (hlow b hb a ha hd)

/-- C4: on a result list in which, of any two elements, the one with the
strictly lower delay has speeds that are not worse, and equal delays come with
different links, `Less` is a strict total order on the elements, and the list
sorted by `Less` is a rearrangement of it in ascending delay order, equal
delays in ascending link order. -/
theorem less_strict_total_sorted (long : List result → List result)
    (hlong : SortsLong long result.Less) (cResults : configResults)
    (h : cResults.Pairwise result.Agree) :
    StrictTotalOn result.Less cResults
    ∧ (sortSort long result.Less cResults).Perm cResults
    ∧ (sortSort long result.Less cResults).Pairwise result.Ascending := by
  have hst := result.strictTotalOn_of_agree cResults h
  have hperm := sortSort_perm long result.Less hlong cResults
  refine ⟨hst, hperm, ?_⟩
  have hsorted := sortSort_sorted long result.Less hlong cResults hst
  have hnodup : (sortSort long result.Less cResults).Pairwise (fun a b => a ≠ b) :=
    hperm.symm.pairwise (h.imp (fun hab => result.ne_of_agree hab))
      (fun hxy => fun e => hxy e.symm)
  refine (hsorted.and hnodup).imp_of_mem ?_
  intro a b ha hb hab
  have ha' : a ∈ cResults := hperm.mem_iff.mp ha
  have hb' : b ∈ cResults := hperm.mem_iff.mp hb
  rcases hst.total a ha' b hb' hab.2 with h1 | h1
  · rcases (result.less_eq_true_iff a b).mp h1 with h2 | h2
    · exact Or.inl h2.1
    · exact Or.inr h2
  · rw [hab.1] at h1
    exact absurd h1 (by decide)

/-- C4 on a concrete list, with the library's sort of long slices taken to be
the insertion sort. -/
theorem less_strict_total_sorted_witness :
    SortsLong (fun data => insertionSort result.Less data 0 data.length) result.Less
    ∧ List.Pairwise result.Agree
        [⟨"b", "tls", 80, float32.fin 5, float32.fin 5⟩,
         ⟨"c", "tls", 50, float32.fin 10, float32.fin 10⟩,
         ⟨"a", "tls", 50, float32.fin 10, float32.fin 10⟩]
    ∧ (StrictTotalOn result.Less
        [⟨"b", "tls", 80, float32.fin 5, float32.fin 5⟩,
         ⟨"c", "tls", 50, float32.fin 10, float32.fin 10⟩,
         ⟨"a", "tls", 50, float32.fin 10, float32.fin 10⟩]
      ∧ (sortSort (fun data => insertionSort result.Less data 0 data.length) result.Less
          [⟨"b", "tls", 80, float32.fin 5, float32.fin 5⟩,
           ⟨"c", "tls", 50, float32.fin 10, float32.fin 10⟩,
           ⟨"a", "tls", 50, float32.fin 10, float32.fin 10⟩]).Perm
          [⟨"b", "tls", 80, float32.fin 5, float32.fin 5⟩,
           ⟨"c", "tls", 50, float32.fin 10, float32.fin 10⟩,
           ⟨"a", "tls", 50, float32.fin 10, float32.fin 10⟩]
      ∧ (sortSort (fun data => insertionSort result.Less data 0 data.length) result.Less
          [⟨"b", "tls", 80, float32.fin 5, float32.fin 5⟩,
           ⟨"c", "tls", 50, float32.fin 10, float32.fin 10⟩,
           ⟨"a", "tls", 50, float32.fin 10, float32.fin 10⟩]).Pairwise result.Ascending) :=
  have hag : List.Pairwise result.Agree
      [⟨"b", "tls", 80, float32.fin 5, float32.fin 5⟩,
       ⟨"c", "tls", 50, float32.fin 10, float32.fin 10⟩,
       ⟨"a", "tls", 50, float32.fin 10, float32.fin 10⟩] := by
    norm_num [result.Agree, float32.ge]
    decide
  ⟨insertionSort_sortsLong result.Less, hag,
    less_strict_total_sorted _ (insertionSort_sortsLong result.Less) _ hag⟩

/-! ### Conversions to `float32` and divisions by zero -/

theorem float32.pow2_eq (e : Int) : float32.pow2 e = (2 : ℚ) ^ e := by
  cases e with
  | ofNat n =>
    simp only [float32.pow2, Nat.cast_pow, Nat.cast_ofNat, Int.ofNat_eq_coe, zpow_natCast]
  | negSucc n =>
    simp only [float32.pow2, Nat.cast_pow, Nat.cast_ofNat, zpow_negSucc, one_div]

theorem float32.ilog2Aux_le : ∀ fuel n : Nat, 1 ≤ n → 2 ^ float32.ilog2Aux fuel n ≤ n := by
  intro fuel
  induction fuel with
  | zero => intro n hn; simpa [float32.ilog2Aux] using hn
  | succ k ih =>
    intro n hn
    unfold float32.ilog2Aux
    by_cases h : n < 2
    · simpa [h] using hn
    · simp only [h, if_false]
      have := ih (n / 2) (by omega)
      rw [pow_succ]
      omega

theorem float32.roundHalfEven_cases (x : ℚ) :
    float32.roundHalfEven x = ⌊x⌋ ∨ float32.roundHalfEven x = ⌊x⌋ + 1 := by
  have key : ∀ (c1 c2 c3 : Prop) [Decidable c1] [Decidable c2] [Decidable c3] (f : Int),
      (if c1 then f else if c2 then f + 1 else if c3 then f else f + 1) = f
      ∨ (if c1 then f else if c2 then f + 1 else if c3 then f else f + 1) = f + 1 := by
    intro c1 c2 c3 _ _ _ f
    by_cases h1 : c1 <;> by_cases h2 : c2 <;> by_cases h3 : c3 <;> simp [h1, h2, h3]
  exact key _ _ _ (Rat.floor x)

theorem float32.ofNat_zero : float32.ofNat 0 = float32.fin 0 := by
  simp [float32.ofNat, float32.round]

theorem float32.ofNat_pos (n : Nat) (h0 : 0 < n) (h32 : n < 2 ^ 32) :
    ∃ r : ℚ, 0 < r ∧ float32.ofNat n = float32.fin r := by
  have hqpos : (0 : ℚ) < (n : ℚ) := by exact_mod_cast h0
  have hq : (n : ℚ) ≠ 0 := ne_of_gt hqpos
  have hlog : ((2 : ℚ) ^ (float32.ilog2 n : Int)) ≤ (n : ℚ) := by
    rw [zpow_natCast]
    exact_mod_cast float32.ilog2Aux_le n n h0
  have hlog1 : float32.ilog2 1 = 0 := by decide
  have hfl : float32.floorLog2 (n : ℚ) = (float32.ilog2 n : Int) := by
    unfold float32.floorLog2
    simp only [Rat.num_natCast, Rat.den_natCast, Int.toNat_ofNat, hlog1, Int.ofNat_zero,
      Nat.cast_zero, sub_zero, float32.pow2_eq, hlog, if_true]
  have he : max (float32.floorLog2 (n : ℚ)) (-126) = (float32.ilog2 n : Int) := by
    rw [hfl]; exact max_eq_left (by omega)
  have hupos : (0 : ℚ) < (2 : ℚ) ^ ((float32.ilog2 n : Int) - 23) := zpow_pos (by norm_num) _
  have hule : (2 : ℚ) ^ ((float32.ilog2 n : Int) - 23) ≤ (n : ℚ) :=
    le_trans (zpow_le_zpow_right₀ (by norm_num) (by omega)) hlog
  have hx : (1 : ℚ) ≤ (n : ℚ) / (2 : ℚ) ^ ((float32.ilog2 n : Int) - 23) :=
    (one_le_div hupos).mpr hule
  have hfloor1 : (1 : Int) ≤ ⌊(n : ℚ) / (2 : ℚ) ^ ((float32.ilog2 n : Int) - 23)⌋ :=
    Int.le_floor.mpr (by exact_mod_cast hx)
  have hm1 : (1 : Int) ≤
      float32.roundHalfEven ((n : ℚ) / (2 : ℚ) ^ ((float32.ilog2 n : Int) - 23)) := by
    rcases float32.roundHalfEven_cases
      ((n : ℚ) / (2 : ℚ) ^ ((float32.ilog2 n : Int) - 23)) with h | h <;> rw [h] <;> omega
  have hm2 : ((float32.roundHalfEven
      ((n : ℚ) / (2 : ℚ) ^ ((float32.ilog2 n : Int) - 23)) : Int) : ℚ)
      ≤ (n : ℚ) / (2 : ℚ) ^ ((float32.ilog2 n : Int) - 23) + 1 := by
    have hfl' := Int.floor_le ((n : ℚ) / (2 : ℚ) ^ ((float32.ilog2 n : Int) - 23))
    rcases float32.roundHalfEven_cases
      ((n : ℚ) / (2 : ℚ) ^ ((float32.ilog2 n : Int) - 23)) with h | h
    · rw [h]; linarith
    · rw [h]; push_cast; linarith
  have hrpos : (0 : ℚ) < ((float32.roundHalfEven
      ((n : ℚ) / (2 : ℚ) ^ ((float32.ilog2 n : Int) - 23)) : Int) : ℚ)
      * (2 : ℚ) ^ ((float32.ilog2 n : Int) - 23) := by
    apply mul_pos _ hupos
    exact_mod_cast hm1
  have hrlt : ((float32.roundHalfEven
      ((n : ℚ) / (2 : ℚ) ^ ((float32.ilog2 n : Int) - 23)) : Int) : ℚ)
      * (2 : ℚ) ^ ((float32.ilog2 n : Int) - 23) < (2 : ℚ) ^ (128 : Int) := by
    have h1 : ((float32.roundHalfEven
        ((n : ℚ) / (2 : ℚ) ^ ((float32.ilog2 n : Int) - 23)) : Int) : ℚ)
        * (2 : ℚ) ^ ((float32.ilog2 n : Int) - 23)
        ≤ ((n : ℚ) / (2 : ℚ) ^ ((float32.ilog2 n : Int) - 23) + 1)
          * (2 : ℚ) ^ ((float32.ilog2 n : Int) - 23) :=
      mul_le_mul_of_nonneg_right hm2 (le_of_lt hupos)
    have h2 : ((n : ℚ) / (2 : ℚ) ^ ((float32.ilog2 n : Int) - 23) + 1)
          * (2 : ℚ) ^ ((float32.ilog2 n : Int) - 23)
        = (n : ℚ) + (2 : ℚ) ^ ((float32.ilog2 n : Int) - 23) := by
      field_simp
    have h3 : (n : ℚ) < 2 ^ 32 := by exact_mod_cast h32
    have h4 : (2 : ℚ) ^ (128 : Int) = 2 ^ 128 := by norm_num
    rw [h4]
    have h5 : (2 : ℚ) ^ 32 + 2 ^ 32 < 2 ^ 128 := by norm_num
    linarith
  refine ⟨_, hrpos, ?_⟩
  unfold float32.ofNat float32.round
  simp only [hq, if_false, hqpos, if_true, he, float32.pow2_eq, not_le.mpr hrlt]

theorem float32.div_zero_eq (a : ℚ) (h : 0 < a) :
    float32.div (float32.fin a) (float32.fin 0) = float32.posInf := by
  simp [float32.div, ne_of_gt h, h]

theorem float32.round_million : ∃ r : ℚ, 0 < r ∧ float32.round 1000000 = float32.fin r := by
  have := float32.ofNat_pos 1000000 (by norm_num) (by norm_num)
  simpa [float32.ofNat] using this

/-- Without a measurement (elapsed time 0) the throughput expression divides
by zero: the outcome is `+Inf` when the wrapped bit count is positive. -/
theorem throughput_zero_elapsed (amount : Nat)
    (h : 0 < amount * 1000 % 2 ^ 32 * 8 % 2 ^ 32) :
    throughput amount 0 = float32.posInf := by
  obtain ⟨r, hr, hre⟩ := float32.ofNat_pos (amount * 1000 % 2 ^ 32 * 8 % 2 ^ 32) h
    (Nat.mod_lt _ (by norm_num))
  obtain ⟨m, hm, hme⟩ := float32.round_million
  unfold throughput
  rw [hre, hme]
  have hz : float32.ofNat (((0 : Int) % 2 ^ 32).toNat / 1000) = float32.fin 0 := by
    simp [float32.ofNat_zero]
  rw [hz, float32.div_zero_eq r hr]
  simp [float32.div, le_of_lt hm]

/-! ### The batch worker -/

theorem worker_append (f : Flags) (link : String) (p : Probe) (confRes : configResults) :
    (worker f link p confRes).1 = confRes ++ (worker f link p []).1 := by
  unfold worker
  cases p.parse with
  | none => simp
  | some parsed =>
    cases p.start with
    | false => simp
    | true =>
      cases p.delay with
      | none => simp
      | some delay =>
        cases f.speedtest with
        | false => simp [workerFinish]
        | true =>
          cases p.download with
          | none => simp
          | some dt =>
            cases p.upload with
            | none => simp
            | some ut => simp [workerFinish]

theorem worker_length_le (f : Flags) (link : String) (p : Probe) :
    (worker f link p []).1.length ≤ 1 := by
  unfold worker
  cases p.parse with
  | none => simp
  | some parsed =>
    cases p.start with
    | false => simp
    | true =>
      cases p.delay with
      | none => simp
      | some delay =>
        cases f.speedtest with
        | false => simp [workerFinish]
        | true =>
          cases p.download with
          | none => simp
          | some dt =>
            cases p.upload with
            | none => simp
            | some ut => simp [workerFinish]

theorem worker_none_of_failure (f : Flags) (link : String) (p : Probe)
    (h : p.parse = none ∨ p.start = false ∨ p.delay = none) :
    (worker f link p []).1 = [] := by
  unfold worker
  cases hp : p.parse with
  | none => simp
  | some parsed =>
    cases hs : p.start with
    | false => simp
    | true =>
      cases hd : p.delay with
      | none => simp
      | some delay =>
        rw [hp, hs, hd] at h
        simp at h

theorem collect_length_add (f : Flags) :
    ∀ (sched : List (String × Probe)) (confRes : configResults),
      (collect f sched confRes).length + sched.countP (fun j => j.2.parse.isNone)
        ≤ confRes.length + sched.length := by
  intro sched
  induction sched with
  | nil => intro confRes; simp [collect]
  | cons j sched ih =>
    intro confRes
    have hstep : collect f (j :: sched) confRes = collect f sched (worker f j.1 j.2 confRes).1 := by
      simp [collect]
    rw [hstep]
    have h1 := ih (worker f j.1 j.2 confRes).1
    rw [worker_append] at h1 ⊢
    rw [List.length_append] at h1
    rw [List.countP_cons, List.length_cons]
    by_cases hp : j.2.parse = none
    · have h0 := worker_none_of_failure f j.1 j.2 (Or.inl hp)
      rw [h0] at h1 ⊢
      simp only [hp, Option.isNone_none, if_true, List.length_nil] at h1 ⊢
      omega
    · have hl := worker_length_le f j.1 j.2
      have hsome : j.2.parse.isNone = false := by
        cases hv : j.2.parse with
        | none => exact absurd hv hp
        | some v => rfl
      simp only [hsome, Bool.false_eq_true, if_false] at h1 ⊢
      omega

/-- C5: a worker appends at most one result, which does not depend on what the
other workers appended, and none when parsing, engine start or the delay
measurement fails; so for `N` links of which `k` fail to parse at most `N - k`
results are collected, whatever the order in which the workers finish. -/
theorem worker_fault_isolation (f : Flags) :
    (∀ (link : String) (p : Probe), ∃ r : List result,
        r.length ≤ 1
        ∧ ((p.parse = none ∨ p.start = false ∨ p.delay = none) → r = [])
        ∧ ∀ confRes : configResults, (worker f link p confRes).1 = confRes ++ r)
    ∧ (∀ sched : List (String × Probe),
        (collect f sched []).length
          ≤ sched.length - sched.countP (fun j => j.2.parse.isNone)) := by
  constructor
  · intro link p
    exact ⟨(worker f link p []).1, worker_length_le f link p,
      worker_none_of_failure f link p, worker_append f link p⟩
  · intro sched
    have h := collect_length_add f sched []
    simp only [List.length_nil, Nat.zero_add] at h
    omega

/-- C6, as stated, fails: with speed testing enabled and parse, start and delay
measurement successful, a failed download request leaves no result with the
measured delay and a zero download speed; likewise a failed upload request. -/
theorem speedtest_failure_drops_link :
    (¬ ∃ r : result,
        (worker ⟨true, 10000⟩ "trojan://p@h:443"
          ⟨some { TLS := "tls" }, true, some 120, none, some 900⟩ []).1 = [r]
        ∧ r.Delay = 120 ∧ r.DownloadSpeed = float32.fin 0)
    ∧ (¬ ∃ r : result,
        (worker ⟨true, 10000⟩ "trojan://p@h:443"
          ⟨some { TLS := "tls" }, true, some 120, some 900, none⟩ []).1 = [r]
        ∧ r.Delay = 120 ∧ r.UploadSpeed = float32.fin 0) := by
  constructor <;> simp [worker]

/-- C6, amended: with speed testing enabled and parse, start and delay
measurement successful, the worker appends a result, carrying the link and the
measured delay, exactly when both the download and the upload request succeed;
when either fails it returns without appending. -/
theorem speedtest_failure_returns (f : Flags) (link : String) (p : Probe)
    (confRes : configResults) (parsed : GeneralConfig) (d : Int)
    (hs : f.speedtest = true) (hp : p.parse = some parsed) (hst : p.start = true)
    (hd : p.delay = some d) :
    ((p.download = none ∨ p.upload = none) → (worker f link p confRes).1 = confRes)
    ∧ (∀ dt ut : Int, p.download = some dt → p.upload = some ut →
        (worker f link p confRes).1
          = confRes ++ [⟨link, parsed.TLS, d, throughput f.speedtestAmount dt,
              throughput f.speedtestAmount ut⟩]) := by
  constructor
  · intro h
    unfold worker
    rw [hp, hst, hd, hs]
    rcases h with h | h
    · simp [h]
    · cases hdl : p.download with
      | none => simp
      | some dt => simp [h]
  · intro dt ut hdt hut
    unfold worker
    rw [hp, hst, hd, hs, hdt, hut]
    simp [workerFinish]

/-- C6, amended, on a concrete link. -/
theorem speedtest_failure_returns_witness :
    ((none : Option Int) = none ∨ (some 900 : Option Int) = none →
        (worker ⟨true, 10000⟩ "trojan://p@h:443"
          ⟨some { TLS := "tls" }, true, some 120, none, some 900⟩ []).1 = [])
    ∧ (∀ dt ut : Int, (none : Option Int) = some dt → (some 900 : Option Int) = some ut →
        (worker ⟨true, 10000⟩ "trojan://p@h:443"
          ⟨some { TLS := "tls" }, true, some 120, none, some 900⟩ []).1
          = [] ++ [⟨"trojan://p@h:443", "tls", 120, throughput 10000 dt,
              throughput 10000 ut⟩]) :=
  speedtest_failure_returns ⟨true, 10000⟩ "trojan://p@h:443"
    ⟨some { TLS := "tls" }, true, some 120, none, some 900⟩ [] { TLS := "tls" } 120
    rfl rfl rfl rfl

/-- C7 fails on the code: on each early return taken after the engine instance
was started (delay measurement failed, download failed, upload failed) the
worker ends without a single call of `instance.Close`. -/
theorem worker_early_return_skips_close :
    (worker ⟨false, 10000⟩ "trojan://p@h:443"
        ⟨some { TLS := "tls" }, true, none, none, none⟩ []).2
      = { started := true, closeCalls := 0 }
    ∧ (worker ⟨true, 10000⟩ "trojan://p@h:443"
        ⟨some { TLS := "tls" }, true, some 120, none, some 900⟩ []).2
      = { started := true, closeCalls := 0 }
    ∧ (worker ⟨true, 10000⟩ "trojan://p@h:443"
        ⟨some { TLS := "tls" }, true, some 120, some 900, none⟩ []).2
      = { started := true, closeCalls := 0 } := by
  refine ⟨?_, ?_, ?_⟩ <;> simp [worker]

/-- C8 fails on the code: with speed testing disabled and the default amount
the appended result has download and upload speed `+Inf`, not zero. -/
theorem worker_unmeasured_speed :
    (worker ⟨false, 10000⟩ "trojan://p@h:443"
        ⟨some { TLS := "tls" }, true, some 120, none, none⟩ []).1
      = [⟨"trojan://p@h:443", "tls", 120, float32.posInf, float32.posInf⟩] := by
  simp [worker, workerFinish, throughput_zero_elapsed 10000 (by norm_num)]

/-! ### Link parsing -/

/-- C9: for each of the Trojan, Vmess and Wireguard variants, on a link that
does not begin with the variant's identifier `Parse` returns an error and
leaves every field of the descriptor as it was. -/
theorem parse_unrecognized (L : Lib) :
    (∀ t : Trojan, HasPrefix t.OrigLink L.TrojanIdentifier = false →
        Trojan.Parse L t = Outcome.ret (some ("trojan unreconized: " ++ t.OrigLink)) t)
    ∧ (∀ v : Vmess, HasPrefix v.OrigLink L.VmessIdentifier = false →
        Vmess.Parse L v = Outcome.ret (some ("vmess unreconized: " ++ v.OrigLink)) v)
    ∧ (∀ w : Wireguard, HasPrefix w.OrigLink L.WireguardIdentifier = false →
        Wireguard.Parse L w
          = Outcome.ret (some ("wireguard unreconized: " ++ w.OrigLink)) w) := by
  refine ⟨?_, ?_, ?_⟩
  · intro t h
    simp [Trojan.Parse, h]
  · intro v h
    simp [Vmess.Parse, h]
  · intro w h
    simp [Wireguard.Parse, h]

/-- C9 on fresh descriptors of a link of another scheme: each `Parse` returns
its error and the descriptor still carries only the original link. -/
theorem parse_unrecognized_witness :
    Trojan.Parse sampleLib (NewTrojan "vless://id@host:443")
        = Outcome.ret (some "trojan unreconized: vless://id@host:443")
            { OrigLink := "vless://id@host:443" }
    ∧ Vmess.Parse sampleLib (NewVmess "vless://id@host:443")
        = Outcome.ret (some "vmess unreconized: vless://id@host:443")
            { OrigLink := "vless://id@host:443" }
    ∧ Wireguard.Parse sampleLib (NewWireguard "vless://id@host:443")
        = Outcome.ret (some "wireguard unreconized: vless://id@host:443")
            { OrigLink := "vless://id@host:443" } :=
  ⟨(parse_unrecognized sampleLib).1 (NewTrojan "vless://id@host:443") (by decide),
   (parse_unrecognized sampleLib).2.1 (NewVmess "vless://id@host:443") (by decide),
   (parse_unrecognized sampleLib).2.2 (NewWireguard "vless://id@host:443") (by decide)⟩

/-- C10: on a link that begins with the vmess identifier, `Parse` runs `method1`
first; when `method1` succeeds `Parse` returns no error, whatever `method2`
would do; when `method1` returns an error `Parse` runs `method2` on the
descriptor as `method1` left it and returns its error, or no error when it
succeeds; so `Parse` returns an error exactly when both return one. -/
theorem vmess_parse_fallback (L : Lib) (v : Vmess)
    (h : HasPrefix v.OrigLink L.VmessIdentifier = true) :
    (∀ v1 : Vmess, method1 L v v.OrigLink = Outcome.ret none v1 →
        Vmess.Parse L v = Outcome.ret none (Vmess.defaultPath v1))
    ∧ (∀ (e1 : GoError) (v1 : Vmess), method1 L v v.OrigLink = Outcome.ret (some e1) v1 →
        (∀ (e2 : GoError) (v2 : Vmess), method2 L v1 v1.OrigLink = Outcome.ret (some e2) v2 →
            Vmess.Parse L v = Outcome.ret (some e2) v2)
        ∧ (∀ v2 : Vmess, method2 L v1 v1.OrigLink = Outcome.ret none v2 →
            Vmess.Parse L v = Outcome.ret none (Vmess.defaultPath v2)))
    ∧ ((∃ (e : GoError) (s : Vmess), Vmess.Parse L v = Outcome.ret (some e) s)
        ↔ ∃ (e1 : GoError) (v1 : Vmess), method1 L v v.OrigLink = Outcome.ret (some e1) v1
            ∧ ∃ (e2 : GoError) (v2 : Vmess),
                method2 L v1 v1.OrigLink = Outcome.ret (some e2) v2) := by
  have hP : Vmess.Parse L v =
      match method1 L v v.OrigLink with
      | Outcome.fault => Outcome.fault
      | Outcome.ret none v1 => Outcome.ret none (Vmess.defaultPath v1)
      | Outcome.ret (some _) v1 =>
        match method2 L v1 v1.OrigLink with
        | Outcome.fault => Outcome.fault
        | Outcome.ret (some e) v2 => Outcome.ret (some e) v2
        | Outcome.ret none v2 => Outcome.ret none (Vmess.defaultPath v2) := by
    simp [Vmess.Parse, h]
  refine ⟨?_, ?_, ?_⟩
  · intro v1 h1
    rw [hP, h1]
  · intro e1 v1 h1
    constructor
    · intro e2 v2 h2
      rw [hP, h1]
      simp only [h2]
    · intro v2 h2
      rw [hP, h1]
      simp only [h2]
  · rw [hP]
    constructor
    · rintro ⟨e, s, hes⟩
      cases h1 : method1 L v v.OrigLink with
      | fault => rw [h1] at hes; cases hes
      | ret err v1 =>
        cases err with
        | none => rw [h1] at hes; cases hes
        | some e1 =>
          refine ⟨e1, v1, rfl, ?_⟩
          rw [h1] at hes
          cases h2 : method2 L v1 v1.OrigLink with
          | fault => simp only [h2] at hes; cases hes
          | ret err2 v2 =>
            cases err2 with
            | none => simp only [h2] at hes; cases hes
            | some e2 => exact ⟨e2, v2, rfl⟩
    · rintro ⟨e1, v1, h1, e2, v2, h2⟩
      rw [h1]
      exact ⟨e2, v2, by simp only [h2]⟩

/-- C10 on the link `vmess://e30=`, whose base64 part decodes to the empty JSON
object: `method1` succeeds and `Parse` returns no error. -/
theorem vmess_parse_fallback_witness :
    HasPrefix (NewVmess "vmess://e30=").OrigLink sampleLib.VmessIdentifier = true
    ∧ method1 sampleLib (NewVmess "vmess://e30=") "vmess://e30="
        = Outcome.ret none (NewVmess "vmess://e30=")
    ∧ Vmess.Parse sampleLib (NewVmess "vmess://e30=")
        = Outcome.ret none (Vmess.defaultPath (NewVmess "vmess://e30=")) :=
  have h1 : method1 sampleLib (NewVmess "vmess://e30=") "vmess://e30="
      = Outcome.ret none (NewVmess "vmess://e30=") := by
    simp [method1, sampleLib, sliceFrom, NewVmess]
    decide
  ⟨by decide, h1,
    (vmess_parse_fallback sampleLib (NewVmess "vmess://e30=") (by decide)).1 _ h1⟩

/-! ### Link parsing: defaulting and addresses -/

theorem Trojan.parse_of_split (L : Lib) (t : Trojan) (uri : URL) (host port : String)
    (hp : HasPrefix t.OrigLink L.TrojanIdentifier = true)
    (hu : L.urlParse t.OrigLink = Except.ok uri)
    (hs : L.splitHostPort uri.Host = (host, port, none)) :
    Trojan.Parse L t = Outcome.ret none (Trojan.defaults (Trojan.populated L t uri host port)) := by
  unfold Trojan.Parse Trojan.populated
  simp only [hp, hu, hs]
  rfl

theorem Trojan.parse_ok_split (L : Lib) (t t' : Trojan)
    (h : Trojan.Parse L t = Outcome.ret none t') :
    ∃ (uri : URL) (host port : String),
      L.urlParse t.OrigLink = Except.ok uri
      ∧ L.splitHostPort uri.Host = (host, port, none)
      ∧ t' = Trojan.defaults (Trojan.populated L t uri host port) := by
  cases hp : HasPrefix t.OrigLink L.TrojanIdentifier with
  | false =>
    have : Trojan.Parse L t = Outcome.ret (some ("trojan unreconized: " ++ t.OrigLink)) t := by
      simp [Trojan.Parse, hp]
    rw [this] at h
    cases h
  | true =>
    cases hu : L.urlParse t.OrigLink with
    | error e =>
      have : Trojan.Parse L t = Outcome.ret (some e) t := by
        simp [Trojan.Parse, hp, hu]
      rw [this] at h
      cases h
    | ok uri =>
      rcases hs : L.splitHostPort uri.Host with ⟨host, port, err⟩
      cases err with
      | some e =>
        have : ∃ s, Trojan.Parse L t = Outcome.ret (some e) s := by
          simp [Trojan.Parse, hp, hu, hs]
        obtain ⟨s, hs'⟩ := this
        rw [hs'] at h
        cases h
      | none =>
        rw [Trojan.parse_of_split L t uri host port hp hu hs] at h
        injection h with _ h2
        exact ⟨uri, host, port, rfl, hs, h2.symm⟩

theorem Trojan.defaults_Type (p : Trojan) :
    (Trojan.defaults p).Type_ = if p.Type_ = "" then "tcp" else p.Type_ := by
  unfold Trojan.defaults
  dsimp only
  split_ifs <;> simp_all

theorem Trojan.defaults_Security (p : Trojan) :
    (Trojan.defaults p).Security = if p.Security = "" then "tls" else p.Security := by
  unfold Trojan.defaults
  dsimp only
  split_ifs <;> simp_all

theorem Trojan.defaults_TlsFingerprint (p : Trojan) :
    (Trojan.defaults p).TlsFingerprint
      = if p.TlsFingerprint = "" then "chrome" else p.TlsFingerprint := by
  unfold Trojan.defaults
  dsimp only
  split_ifs <;> simp_all

theorem Trojan.defaults_Path (p : Trojan) :
    (Trojan.defaults p).Path
      = if (p.HeaderType = "http" ∨ p.Type_ = "ws" ∨ p.Type_ = "h2") ∧ p.Path = "" then "/"
        else p.Path := by
  unfold Trojan.defaults
  dsimp only
  split_ifs <;> simp_all

theorem Trojan.defaults_Address (p : Trojan) : (Trojan.defaults p).Address = p.Address := by
  unfold Trojan.defaults
  dsimp only
  split_ifs <;> simp_all

/-- C11: when `Trojan.Parse` succeeds, the descriptor it populated from the
link gets `Type` `tcp` where the type was left empty, `Security` `tls` where
the security was left empty and `TlsFingerprint` `chrome` where the fingerprint
was left empty; none of the three is empty afterwards. -/
theorem trojan_parse_defaults (L : Lib) (t t' : Trojan)
    (h : Trojan.Parse L t = Outcome.ret none t') :
    (∃ (uri : URL) (host port : String),
        L.urlParse t.OrigLink = Except.ok uri
        ∧ L.splitHostPort uri.Host = (host, port, none)
        ∧ ((Trojan.populated L t uri host port).Type_ = "" → t'.Type_ = "tcp")
        ∧ ((Trojan.populated L t uri host port).Security = "" → t'.Security = "tls")
        ∧ ((Trojan.populated L t uri host port).TlsFingerprint = "" →
              t'.TlsFingerprint = "chrome"))
    ∧ t'.Type_ ≠ "" ∧ t'.Security ≠ "" ∧ t'.TlsFingerprint ≠ "" := by
  obtain ⟨uri, host, port, hu, hs, ht⟩ := Trojan.parse_ok_split L t t' h
  subst ht
  refine ⟨⟨uri, host, port, hu, hs, ?_, ?_, ?_⟩, ?_, ?_, ?_⟩
  · intro h0; rw [Trojan.defaults_Type, if_pos h0]
  · intro h0; rw [Trojan.defaults_Security, if_pos h0]
  · intro h0; rw [Trojan.defaults_TlsFingerprint, if_pos h0]
  · rw [Trojan.defaults_Type]
    by_cases h0 : (Trojan.populated L t uri host port).Type_ = ""
    · rw [if_pos h0]; decide
    · rw [if_neg h0]; exact h0
  · rw [Trojan.defaults_Security]
    by_cases h0 : (Trojan.populated L t uri host port).Security = ""
    · rw [if_pos h0]; decide
    · rw [if_neg h0]; exact h0
  · rw [Trojan.defaults_TlsFingerprint]
    by_cases h0 : (Trojan.populated L t uri host port).TlsFingerprint = ""
    · rw [if_pos h0]; decide
    · rw [if_neg h0]; exact h0

theorem demo_parse_plain :
    Trojan.Parse demoLib (NewTrojan "trojan://pw@host:443")
      = Outcome.ret none
          { OrigLink := "trojan://pw@host:443", Password := "pw", Address := "host",
            Port := "443", Type_ := "tcp", Security := "tls", TlsFingerprint := "chrome" } := by
  rfl

theorem demo_parse_explicit :
    Trojan.Parse demoLib
        (NewTrojan "trojan://pw@host:443?type=ws&security=reality&fp=firefox&path=/x")
      = Outcome.ret none
          { OrigLink := "trojan://pw@host:443?type=ws&security=reality&fp=firefox&path=/x",
            Password := "pw", Address := "host", Port := "443", Type_ := "ws",
            Security := "reality", TlsFingerprint := "firefox", Path := "/x" } := by
  rfl

/-- C11 on the link `trojan://pw@host:443`, which names no type, security or
fingerprint: the parsed descriptor has `tcp`, `tls` and `chrome`. -/
theorem trojan_parse_defaults_witness :
    Trojan.Parse demoLib (NewTrojan "trojan://pw@host:443")
      = Outcome.ret none
          { OrigLink := "trojan://pw@host:443", Password := "pw", Address := "host",
            Port := "443", Type_ := "tcp", Security := "tls", TlsFingerprint := "chrome" }
    ∧ ("tcp" : String) ≠ "" ∧ ("tls" : String) ≠ "" ∧ ("chrome" : String) ≠ "" :=
  ⟨demo_parse_plain, (trojan_parse_defaults demoLib _ _ demo_parse_plain).2⟩

/-- C12: when `Trojan.Parse` succeeds, a non-empty type, security, fingerprint
or path that the descriptor was populated with from the link is the parsed
descriptor's `Type`, `Security`, `TlsFingerprint` or `Path`. -/
theorem trojan_parse_keeps_explicit (L : Lib) (t t' : Trojan)
    (h : Trojan.Parse L t = Outcome.ret none t') :
    ∃ (uri : URL) (host port : String),
      L.urlParse t.OrigLink = Except.ok uri
      ∧ L.splitHostPort uri.Host = (host, port, none)
      ∧ ((Trojan.populated L t uri host port).Type_ ≠ "" →
            t'.Type_ = (Trojan.populated L t uri host port).Type_)
      ∧ ((Trojan.populated L t uri host port).Security ≠ "" →
            t'.Security = (Trojan.populated L t uri host port).Security)
      ∧ ((Trojan.populated L t uri host port).TlsFingerprint ≠ "" →
            t'.TlsFingerprint = (Trojan.populated L t uri host port).TlsFingerprint)
      ∧ ((Trojan.populated L t uri host port).Path ≠ "" →
            t'.Path = (Trojan.populated L t uri host port).Path) := by
  obtain ⟨uri, host, port, hu, hs, ht⟩ := Trojan.parse_ok_split L t t' h
  subst ht
  refine ⟨uri, host, port, hu, hs, ?_, ?_, ?_, ?_⟩
  · intro h0; rw [Trojan.defaults_Type, if_neg h0]
  · intro h0; rw [Trojan.defaults_Security, if_neg h0]
  · intro h0; rw [Trojan.defaults_TlsFingerprint, if_neg h0]
  · intro h0; rw [Trojan.defaults_Path, if_neg (fun hc => h0 hc.2)]

/-- C12 on a link whose query names the type `ws`, the security `reality`, the
fingerprint `firefox` and the path `/x`: the parsed descriptor has exactly
these. -/
theorem trojan_parse_keeps_explicit_witness :
    Trojan.Parse demoLib
        (NewTrojan "trojan://pw@host:443?type=ws&security=reality&fp=firefox&path=/x")
      = Outcome.ret none
          { OrigLink := "trojan://pw@host:443?type=ws&security=reality&fp=firefox&path=/x",
            Password := "pw", Address := "host", Port := "443", Type_ := "ws",
            Security := "reality", TlsFingerprint := "firefox", Path := "/x" }
    ∧ ∃ (uri : URL) (host port : String),
        demoLib.urlParse "trojan://pw@host:443?type=ws&security=reality&fp=firefox&path=/x"
          = Except.ok uri
        ∧ demoLib.splitHostPort uri.Host = (host, port, none) :=
  ⟨demo_parse_explicit,
    match trojan_parse_keeps_explicit demoLib _ _ demo_parse_explicit with
    | ⟨uri, host, port, hu, hs, _⟩ => ⟨uri, host, port, hu, hs⟩⟩

theorem Vmess.parse_ok_cases (L : Lib) (v v' : Vmess)
    (h : Vmess.Parse L v = Outcome.ret none v') :
    (∃ d : Vmess, method1 L v v.OrigLink = Outcome.ret none d ∧ v' = Vmess.defaultPath d)
    ∨ (∃ (e1 : GoError) (v1 d : Vmess),
        method1 L v v.OrigLink = Outcome.ret (some e1) v1
        ∧ method2 L v1 v1.OrigLink = Outcome.ret none d
        ∧ v' = Vmess.defaultPath d) := by
  unfold Vmess.Parse at h
  cases hp : HasPrefix v.OrigLink L.VmessIdentifier with
  | false =>
    rw [hp] at h
    simp only [if_true] at h
    cases h
  | true =>
    rw [hp] at h
    simp only [Bool.true_eq_false, if_false] at h
    cases h1 : method1 L v v.OrigLink with
    | fault => rw [h1] at h; cases h
    | ret err v1 =>
      rw [h1] at h
      cases err with
      | none =>
        left
        injection h with _ h2
        exact ⟨v1, rfl, h2.symm⟩
      | some e1 =>
        right
        simp only at h
        cases h2 : method2 L v1 v1.OrigLink with
        | fault => rw [h2] at h; cases h
        | ret err2 d =>
          rw [h2] at h
          cases err2 with
          | some e2 => cases h
          | none =>
            injection h with _ h3
            exact ⟨e1, v1, d, rfl, h2, h3.symm⟩

theorem Vmess.defaultPath_Path (d : Vmess) :
    (Vmess.defaultPath d).Path
      = if (d.Type_ = "xhttp" ∨ d.Type_ = "http" ∨ d.Network = "ws" ∨ d.Network = "h2")
            ∧ d.Path = "" then "/"
        else d.Path := by
  unfold Vmess.defaultPath
  split_ifs <;> simp_all

theorem Vmess.defaultPath_Address (d : Vmess) : (Vmess.defaultPath d).Address = d.Address := by
  unfold Vmess.defaultPath
  split_ifs <;> rfl

theorem demo_parse_http :
    Trojan.Parse demoLib (NewTrojan "trojan://pw@host:443?type=http")
      = Outcome.ret none
          { OrigLink := "trojan://pw@host:443?type=http", Password := "pw", Address := "host",
            Port := "443", Type_ := "http", Security := "tls", TlsFingerprint := "chrome",
            Path := "" } := by
  rfl

theorem demo_parse_ws :
    Trojan.Parse demoLib (NewTrojan "trojan://pw@host:443?type=ws")
      = Outcome.ret none
          { OrigLink := "trojan://pw@host:443?type=ws", Password := "pw", Address := "host",
            Port := "443", Type_ := "ws", Security := "tls", TlsFingerprint := "chrome",
            Path := "/" } := by
  rfl

theorem demo_vmess_parse_ws :
    Vmess.Parse demoLib (NewVmess "vmess://eyJuZXQiOiJ3cyJ9")
      = Outcome.ret none
          { OrigLink := "vmess://eyJuZXQiOiJ3cyJ9", Network := "ws", Path := "/" } := by
  rfl

/-- C13, as stated, fails: a Trojan link with the transport type `http` and no
path parses to a descriptor with an empty `Path`, and so does the defaulting
of either variant on the split-HTTP transport. -/
theorem http_family_path_not_defaulted :
    Trojan.Parse demoLib (NewTrojan "trojan://pw@host:443?type=http")
      = Outcome.ret none
          { OrigLink := "trojan://pw@host:443?type=http", Password := "pw", Address := "host",
            Port := "443", Type_ := "http", Security := "tls", TlsFingerprint := "chrome",
            Path := "" }
    ∧ (Trojan.defaults
          { OrigLink := "trojan://pw@host:443?type=splithttp", Type_ := "splithttp" }).Path = ""
    ∧ (Vmess.defaultPath
          { OrigLink := "vmess://eyJuZXQiOiJzcGxpdGh0dHAifQ==", Network := "splithttp" }).Path
        = "" :=
  ⟨demo_parse_http, by decide, by decide⟩

/-- C13, amended: when `Trojan.Parse` succeeds on a link that left the path
empty and gave the header type `http` or the transport type `ws` or `h2`, the
parsed `Path` is `/`; when `Vmess.Parse` succeeds on a link that left the path
empty and gave the header type `http` or the network `ws` or `h2`, the parsed
`Path` is `/`. -/
theorem http_family_path_default (L : Lib) :
    (∀ t t' : Trojan, Trojan.Parse L t = Outcome.ret none t' →
      ∃ (uri : URL) (host port : String),
        L.urlParse t.OrigLink = Except.ok uri
        ∧ L.splitHostPort uri.Host = (host, port, none)
        ∧ (((Trojan.populated L t uri host port).HeaderType = "http"
              ∨ (Trojan.populated L t uri host port).Type_ = "ws"
              ∨ (Trojan.populated L t uri host port).Type_ = "h2") →
            (Trojan.populated L t uri host port).Path = "" → t'.Path = "/"))
    ∧ (∀ v v' : Vmess, Vmess.Parse L v = Outcome.ret none v' →
      ∃ d : Vmess,
        (method1 L v v.OrigLink = Outcome.ret none d
          ∨ ∃ (e1 : GoError) (v1 : Vmess), method1 L v v.OrigLink = Outcome.ret (some e1) v1
              ∧ method2 L v1 v1.OrigLink = Outcome.ret none d)
        ∧ ((d.Type_ = "http" ∨ d.Network = "ws" ∨ d.Network = "h2") →
            d.Path = "" → v'.Path = "/")) := by
  constructor
  · intro t t' h
    obtain ⟨uri, host, port, hu, hs, ht⟩ := Trojan.parse_ok_split L t t' h
    subst ht
    refine ⟨uri, host, port, hu, hs, ?_⟩
    intro hc hp
    rw [Trojan.defaults_Path, if_pos ⟨hc, hp⟩]
  · intro v v' h
    have key : ∀ d : Vmess, (d.Type_ = "http" ∨ d.Network = "ws" ∨ d.Network = "h2") →
        d.Path = "" → (Vmess.defaultPath d).Path = "/" := by
      intro d hc hp
      rw [Vmess.defaultPath_Path, if_pos ⟨Or.inr hc, hp⟩]
    rcases Vmess.parse_ok_cases L v v' h with ⟨d, h1, hv⟩ | ⟨e1, v1, d, h1, h2, hv⟩
    · subst hv
      exact ⟨d, Or.inl h1, key d⟩
    · subst hv
      exact ⟨d, Or.inr ⟨e1, v1, h1, h2⟩, key d⟩

/-- C13, amended, on a Trojan link with the type `ws` and on a Vmess link whose
JSON gives the network `ws`, both without a path: each parses to `Path` `/`. -/
theorem http_family_path_default_witness :
    (Trojan.Parse demoLib (NewTrojan "trojan://pw@host:443?type=ws")
        = Outcome.ret none
            { OrigLink := "trojan://pw@host:443?type=ws", Password := "pw", Address := "host",
              Port := "443", Type_ := "ws", Security := "tls", TlsFingerprint := "chrome",
              Path := "/" }
      ∧ ∃ (uri : URL) (host port : String),
          demoLib.urlParse "trojan://pw@host:443?type=ws" = Except.ok uri
          ∧ demoLib.splitHostPort uri.Host = (host, port, none))
    ∧ (Vmess.Parse demoLib (NewVmess "vmess://eyJuZXQiOiJ3cyJ9")
        = Outcome.ret none
            { OrigLink := "vmess://eyJuZXQiOiJ3cyJ9", Network := "ws", Path := "/" }
      ∧ ∃ d : Vmess,
          method1 demoLib (NewVmess "vmess://eyJuZXQiOiJ3cyJ9") "vmess://eyJuZXQiOiJ3cyJ9"
              = Outcome.ret none d
          ∨ ∃ (e1 : GoError) (v1 : Vmess),
              method1 demoLib (NewVmess "vmess://eyJuZXQiOiJ3cyJ9") "vmess://eyJuZXQiOiJ3cyJ9"
                = Outcome.ret (some e1) v1
              ∧ method2 demoLib v1 v1.OrigLink = Outcome.ret none d) :=
  ⟨⟨demo_parse_ws,
      match (http_family_path_default demoLib).1 _ _ demo_parse_ws with
      | ⟨uri, host, port, hu, hs, _⟩ => ⟨uri, host, port, hu, hs⟩⟩,
    ⟨demo_vmess_parse_ws,
      match (http_family_path_default demoLib).2 _ _ demo_vmess_parse_ws with
      | ⟨d, hd, _⟩ => ⟨d, hd⟩⟩⟩

theorem trojanApply_Address (L : Lib) (q : Values) :
    ∀ (fields : List (String × FieldSetter Trojan)) (s : Trojan),
      QueryKeepsAddress fields q → (trojanApply L q fields s).Address = s.Address := by
  intro fields
  induction fields with
  | nil => intro s _; rfl
  | cons e rest ih =>
    intro s hk
    obtain ⟨tag, setter⟩ := e
    have hrest : QueryKeepsAddress rest q :=
      fun e' he' => hk e' (List.mem_cons_of_mem _ he')
    have hhead : q tag ≠ none → setter.KeepsAddress :=
      hk (tag, setter) (List.mem_cons_self _ _)
    unfold trojanApply
    cases hq : q tag with
    | none => exact ih s hrest
    | some val =>
      obtain ⟨value, more⟩ := val
      have hkeep := hhead (by rw [hq]; exact fun hc => Option.noConfusion hc)
      cases setter with
      | string set => exact (ih (set s value) hrest).trans (hkeep s value)
      | int set => exact (ih (set s (L.sscanfInt value)) hrest).trans (hkeep s (L.sscanfInt value))
      | int32 set => exact ih s hrest
      | other => exact ih s hrest

theorem Trojan.populated_Address (L : Lib) (t : Trojan) (uri : URL) (host port : String)
    (hk : QueryKeepsAddress L.trojanFields (L.parseQuery uri.RawQuery)) :
    (Trojan.populated L t uri host port).Address = bracketIPv6 L host := by
  unfold Trojan.populated
  rcases L.pathUnescape uri.Fragment with ⟨remark, err⟩
  have hA := trojanApply_Address L (L.parseQuery uri.RawQuery) L.trojanFields
  cases err with
  | none =>
    dsimp only
    rw [hA _ hk]
    unfold bracketIPv6
    split_ifs <;> rfl
  | some e =>
    dsimp only
    rw [hA _ hk]
    unfold bracketIPv6
    split_ifs <;> rfl

theorem method2Fill_of_split (L : Lib) (v : Vmess) (uri : URL) (host port : String)
    (hs : L.splitHostPort uri.Host = (host, port, none)) :
    method2Fill L v uri = Outcome.ret none (method2Filled L v uri host port) := by
  unfold method2Fill
  rw [hs]
  by_cases h6 : L.isIPv6 host = true
  · simp only [method2Filled, bracketIPv6, h6, if_true]
    rfl
  · simp only [method2Filled, bracketIPv6, h6, if_false]
    rfl

theorem method2Filled_Address (L : Lib) (v : Vmess) (uri : URL) (host port : String) :
    (method2Filled L v uri host port).Address = bracketIPv6 L host := by
  have h1 : ∀ (q : Values) (x : Vmess), (method2Remarks q x).Address = x.Address := by
    intro q x; unfold method2Remarks; split_ifs <;> rfl
  have h2 : ∀ (q : Values) (x : Vmess), (method2Path q x).Address = x.Address := by
    intro q x; unfold method2Path; split_ifs <;> rfl
  have h3 : ∀ (q : Values) (x : Vmess), (method2Tls q x).Address = x.Address := by
    intro q x; unfold method2Tls; split_ifs <;> rfl
  have h4 : ∀ (q : Values) (x : Vmess), (method2Obfs q x).Address = x.Address := by
    intro q x; unfold method2Obfs; split_ifs <;> rfl
  have h5 : ∀ (q : Values) (x : Vmess), (method2ObfsParam q x).Address = x.Address := by
    intro q x; unfold method2ObfsParam; split_ifs <;> rfl
  have h6 : ∀ (q : Values) (x : Vmess), (method2Peer q x).Address = x.Address := by
    intro q x; unfold method2Peer; split_ifs <;> rfl
  unfold method2Filled
  rw [h6, h5, h4, h3, h2, h1]

theorem method1_ok (L : Lib) (v d : Vmess) (link : String)
    (h : method1 L v link = Outcome.ret none d) :
    ∃ (decoded : String) (u : Vmess),
      L.base64Decode (sliceFrom link 8) = Except.ok decoded
      ∧ L.jsonUnmarshal decoded v = (none, u)
      ∧ d.Address = bracketIPv6 L u.Address := by
  unfold method1 at h
  by_cases hl : link.length < 8
  · rw [if_pos hl] at h; cases h
  · rw [if_neg hl] at h
    cases hb : L.base64Decode (sliceFrom link 8) with
    | error e => rw [hb] at h; cases h
    | ok decoded =>
      rcases hj : L.jsonUnmarshal decoded v with ⟨err, u⟩
      simp only [hb, hj] at h
      cases err with
      | some e => cases h
      | none =>
        refine ⟨decoded, u, rfl, hj, ?_⟩
        dsimp only at h
        unfold bracketIPv6
        by_cases h6 : L.isIPv6 u.Address = true
        · rw [if_pos h6] at h ⊢
          injection h with _ h2
          rw [← h2]
        · rw [if_neg h6] at h ⊢
          injection h with _ h2
          rw [← h2]

theorem method2Fill_ok (L : Lib) (v d : Vmess) (uri : URL)
    (h : method2Fill L v uri = Outcome.ret none d) :
    ∃ host port : String,
      L.splitHostPort uri.Host = (host, port, none) ∧ d.Address = bracketIPv6 L host := by
  rcases hs : L.splitHostPort uri.Host with ⟨host, port, err⟩
  cases err with
  | some e =>
    unfold method2Fill at h
    rw [hs] at h
    cases h
  | none =>
    rw [method2Fill_of_split L v uri host port hs] at h
    injection h with _ h2
    exact ⟨host, port, rfl, by rw [← h2, method2Filled_Address]⟩

theorem method2_ok (L : Lib) (v d : Vmess) (link : String)
    (h : method2 L v link = Outcome.ret none d) :
    ∃ (uri : URL) (decoded : String) (uri2 : URL) (host port : String),
      L.urlParse link = Except.ok uri
      ∧ L.base64Decode uri.Host = Except.ok decoded
      ∧ L.urlParse (L.VmessIdentifier ++ "://" ++ decoded ++ "?" ++ uri.RawQuery)
          = Except.ok uri2
      ∧ L.splitHostPort uri2.Host = (host, port, none)
      ∧ d.Address = bracketIPv6 L host := by
  cases hu : L.urlParse link with
  | error e => simp only [method2, hu] at h; cases h
  | ok uri =>
    cases hb : L.base64Decode uri.Host with
    | error e => simp only [method2, hu, hb] at h; cases h
    | ok decoded =>
      cases hu2 : L.urlParse (L.VmessIdentifier ++ "://" ++ decoded ++ "?" ++ uri.RawQuery) with
      | error e => simp only [method2, hu, hb, hu2] at h; cases h
      | ok uri2 =>
        simp only [method2, hu, hb, hu2] at h
        obtain ⟨host, port, hs, hd⟩ := method2Fill_ok L v d uri2 h
        exact ⟨uri, decoded, uri2, host, port, rfl, hb, hu2, hs, hd⟩

theorem demoFields_keepsAddress (q : Values) : QueryKeepsAddress demoFields q := by
  intro e he _
  simp only [demoFields, List.mem_cons, List.mem_singleton, List.not_mem_nil, or_false] at he
  rcases he with h | h | h | h | h | h | h | h | h | h | h | h | h | h | h <;>
    (subst h; intro t value; rfl)

theorem demo_parse_ipv6 :
    Trojan.Parse demoLib (NewTrojan "trojan://pw@[::1]:443")
      = Outcome.ret none
          { OrigLink := "trojan://pw@[::1]:443", Password := "pw", Address := "[::1]",
            Port := "443", Type_ := "tcp", Security := "tls", TlsFingerprint := "chrome" } := by
  rfl

theorem demo_vmess_parse_ipv6 :
    Vmess.Parse demoLib (NewVmess "vmess://eyJhZGQiOiI6OjEifQ==")
      = Outcome.ret none
          { OrigLink := "vmess://eyJhZGQiOiI6OjEifQ==", Address := "[::1]" } := by
  rfl

/-- C14, as stated, fails for Trojan: the reflection loop of `Trojan.Parse` runs
after the bracketing and stores every query value whose key is the tag of a
field. With `Address` under the tag `address`, the link
`trojan://pw@[::1]:443?address=evil` parses without an error, its host part is
the IPv6 literal `::1`, and the stored `Address` is `evil`, not `[::1]`. -/
theorem parse_address_overwritten :
    addressLib.urlParse "trojan://pw@[::1]:443?address=evil"
      = Except.ok ⟨some ⟨"pw", "", false⟩, "[::1]:443", "address=evil", ""⟩
    ∧ addressLib.splitHostPort "[::1]:443" = ("::1", "443", none)
    ∧ addressLib.isIPv6 "::1" = true
    ∧ Trojan.Parse addressLib (NewTrojan "trojan://pw@[::1]:443?address=evil")
        = Outcome.ret none
            { OrigLink := "trojan://pw@[::1]:443?address=evil", Password := "pw",
              Address := "evil", Port := "443", Type_ := "tcp", Security := "tls",
              TlsFingerprint := "chrome" } :=
  ⟨rfl, rfl, rfl, by rfl⟩

/-- C14, amended: when `Trojan.Parse` succeeds on a link whose query names no
field that holds the address, the stored `Address` is the host part split from
the link's `host:port`, between brackets if it is an IPv6 literal and unchanged
otherwise; when `Vmess.Parse` succeeds, the stored `Address` is so obtained
from the JSON address field (first decoding) or from the host part split from
`host:port` (second decoding). -/
theorem parse_address_bracketed (L : Lib) :
    (∀ t t' : Trojan, Trojan.Parse L t = Outcome.ret none t' →
      ∃ (uri : URL) (host port : String),
        L.urlParse t.OrigLink = Except.ok uri
        ∧ L.splitHostPort uri.Host = (host, port, none)
        ∧ (QueryKeepsAddress L.trojanFields (L.parseQuery uri.RawQuery) →
            t'.Address = if L.isIPv6 host = true then "[" ++ host ++ "]" else host))
    ∧ (∀ v v' : Vmess, Vmess.Parse L v = Outcome.ret none v' →
      (∃ (decoded : String) (u : Vmess),
          L.base64Decode (sliceFrom v.OrigLink 8) = Except.ok decoded
          ∧ L.jsonUnmarshal decoded v = (none, u)
          ∧ v'.Address = if L.isIPv6 u.Address = true then "[" ++ u.Address ++ "]"
              else u.Address)
      ∨ (∃ (e1 : GoError) (v1 : Vmess) (uri : URL) (decoded : String) (uri2 : URL)
            (host port : String),
          method1 L v v.OrigLink = Outcome.ret (some e1) v1
          ∧ L.urlParse v1.OrigLink = Except.ok uri
          ∧ L.base64Decode uri.Host = Except.ok decoded
          ∧ L.urlParse (L.VmessIdentifier ++ "://" ++ decoded ++ "?" ++ uri.RawQuery)
              = Except.ok uri2
          ∧ L.splitHostPort uri2.Host = (host, port, none)
          ∧ v'.Address = if L.isIPv6 host = true then "[" ++ host ++ "]" else host)) := by
  constructor
  · intro t t' h
    obtain ⟨uri, host, port, hu, hs, ht⟩ := Trojan.parse_ok_split L t t' h
    subst ht
    refine ⟨uri, host, port, hu, hs, ?_⟩
    intro hk
    rw [Trojan.defaults_Address, Trojan.populated_Address L t uri host port hk]
    rfl
  · intro v v' h
    rcases Vmess.parse_ok_cases L v v' h with ⟨d, h1, hv⟩ | ⟨e1, v1, d, h1, h2, hv⟩
    · left
      subst hv
      obtain ⟨decoded, u, hb, hj, hd⟩ := method1_ok L v d v.OrigLink h1
      exact ⟨decoded, u, hb, hj, by rw [Vmess.defaultPath_Address, hd]; rfl⟩
    · right
      subst hv
      obtain ⟨uri, decoded, uri2, host, port, hu, hb, hu2, hs, hd⟩ :=
        method2_ok L v1 d v1.OrigLink h2
      exact ⟨e1, v1, uri, decoded, uri2, host, port, h1, hu, hb, hu2, hs,
        by rw [Vmess.defaultPath_Address, hd]; rfl⟩

/-- C14, amended, on the Trojan link `trojan://pw@[::1]:443` and on the Vmess
link whose JSON gives the address `::1`: both parse to the `Address` `[::1]`. -/
theorem parse_address_bracketed_witness :
    (Trojan.Parse demoLib (NewTrojan "trojan://pw@[::1]:443")
        = Outcome.ret none
            { OrigLink := "trojan://pw@[::1]:443", Password := "pw", Address := "[::1]",
              Port := "443", Type_ := "tcp", Security := "tls", TlsFingerprint := "chrome" }
      ∧ ∃ (uri : URL) (host port : String),
          demoLib.urlParse "trojan://pw@[::1]:443" = Except.ok uri
          ∧ demoLib.splitHostPort uri.Host = (host, port, none)
          ∧ "[::1]" = if demoLib.isIPv6 host = true then "[" ++ host ++ "]" else host)
    ∧ Vmess.Parse demoLib (NewVmess "vmess://eyJhZGQiOiI6OjEifQ==")
        = Outcome.ret none
            { OrigLink := "vmess://eyJhZGQiOiI6OjEifQ==", Address := "[::1]" } :=
  ⟨⟨demo_parse_ipv6,
      match (parse_address_bracketed demoLib).1 _ _ demo_parse_ipv6 with
      | ⟨uri, host, port, hu, hs, hk⟩ =>
        ⟨uri, host, port, hu, hs, hk (demoFields_keepsAddress _)⟩⟩,
    demo_vmess_parse_ipv6⟩

/-! ### The summary record -/

/-- C15 fails on the code for Wireguard: the records of Trojan and Vmess carry
the variant's name, the address and the original link, the record of Wireguard
carries the name and the endpoint but an empty `OrigLink`, whatever the
descriptor's original link. -/
theorem general_config_fields :
    (∀ t : Trojan,
        (Trojan.ConvertToGeneralConfig t).Protocol = "trojan"
        ∧ (Trojan.ConvertToGeneralConfig t).Address = t.Address
        ∧ (Trojan.ConvertToGeneralConfig t).OrigLink = t.OrigLink)
    ∧ (∀ v : Vmess,
        (Vmess.ConvertToGeneralConfig v).Protocol = "vmess"
        ∧ (Vmess.ConvertToGeneralConfig v).Address = v.Address
        ∧ (Vmess.ConvertToGeneralConfig v).OrigLink = v.OrigLink)
    ∧ (∀ w : Wireguard,
        (Wireguard.ConvertToGeneralConfig w).Protocol = "wireguard"
        ∧ (Wireguard.ConvertToGeneralConfig w).Address = w.Endpoint
        ∧ (Wireguard.ConvertToGeneralConfig w).OrigLink = "")
    ∧ (Wireguard.ConvertToGeneralConfig
          { OrigLink := "wireguard://key@host:51820", Endpoint := "host:51820" }).OrigLink
        ≠ "wireguard://key@host:51820" := by
  refine ⟨fun t => ⟨rfl, rfl, rfl⟩, fun v => ?_, fun w => ⟨rfl, rfl, rfl⟩, by decide⟩
  unfold Vmess.ConvertToGeneralConfig
  by_cases h : v.TLS = "" <;> simp [h]

/-- C16 fails on the code for Vmess: the TLS mode of a Trojan record is `none`
for an empty `Security` and the `Security` otherwise, but the TLS mode of a
Vmess record is the descriptor's `TLS` as it is, the empty string included. -/
theorem general_config_tls :
    (∀ t : Trojan,
        (Trojan.ConvertToGeneralConfig t).TLS = if t.Security = "" then "none" else t.Security)
    ∧ (∀ v : Vmess, (Vmess.ConvertToGeneralConfig v).TLS = v.TLS)
    ∧ (Vmess.ConvertToGeneralConfig (NewVmess "vmess://eyJuZXQiOiJ3cyJ9")).TLS = "" := by
  refine ⟨fun t => rfl, fun v => ?_, by decide⟩
  unfold Vmess.ConvertToGeneralConfig
  by_cases h : v.TLS = "" <;> simp [h]

/-! ### The builders -/

theorem Trojan.craft_state (t : Trojan) (allowInsecure : Bool) :
    (Trojan.CraftOutboundOptions t allowInsecure).state
      = { t with
          ServiceName := if t.Type_ = "grpc" then stripSlash t.ServiceName else t.ServiceName } := by
  unfold Trojan.CraftOutboundOptions
  by_cases h : t.Type_ = "grpc" <;> simp [h]

theorem Vmess.build_state (jsonMarshal : List String → String) (v : Vmess)
    (allowInsecure : Bool) :
    (Vmess.BuildOutboundDetourConfig jsonMarshal v allowInsecure).state
      = { v with
          Path := if v.Network = "grpc" then stripSlash v.Path else v.Path
          TlsFingerprint :=
            if v.TLS = "tls" ∧ v.TlsFingerprint = "" then "chrome" else v.TlsFingerprint } := by
  unfold Vmess.BuildOutboundDetourConfig
  cases v
  dsimp only
  split_ifs <;> simp_all

/-- C17, as stated, fails: `CraftOutboundOptions` changes the `ServiceName` of a
`grpc` Trojan descriptor that begins with `/`, and `BuildOutboundDetourConfig`
changes the `Path` of such a Vmess descriptor and the empty `TlsFingerprint` of
a Vmess descriptor with TLS. -/
theorem build_changes_descriptor :
    (Trojan.CraftOutboundOptions
        { OrigLink := "trojan://pw@host:443?type=grpc&serviceName=/svc", Type_ := "grpc",
          ServiceName := "/svc" } false).state.ServiceName = "svc"
    ∧ (Vmess.BuildOutboundDetourConfig demoMarshal
        { OrigLink := "vmess://link", Network := "grpc", Path := "/svc" } false).state.Path
        = "svc"
    ∧ (Vmess.BuildOutboundDetourConfig demoMarshal
        { OrigLink := "vmess://link", TLS := "tls" } false).state.TlsFingerprint = "chrome" := by
  refine ⟨?_, ?_, ?_⟩
  · rw [Trojan.craft_state]; decide
  · rw [Vmess.build_state]; decide
  · rw [Vmess.build_state]; decide

/-- C17, amended: `CraftOutboundOptions` leaves every field of the Trojan
descriptor as it was except `ServiceName`, which for the type `grpc` loses a
leading `/`; `BuildOutboundDetourConfig` leaves every field of the Vmess
descriptor as it was except `Path`, which for the network `grpc` loses a
leading `/`, and `TlsFingerprint`, which becomes `chrome` when `TLS` is `tls`
and it was empty. -/
theorem build_frame :
    (∀ (t : Trojan) (allowInsecure : Bool),
        (Trojan.CraftOutboundOptions t allowInsecure).state
          = { t with
              ServiceName :=
                if t.Type_ = "grpc" then stripSlash t.ServiceName else t.ServiceName })
    ∧ (∀ (jsonMarshal : List String → String) (v : Vmess) (allowInsecure : Bool),
        (Vmess.BuildOutboundDetourConfig jsonMarshal v allowInsecure).state
          = { v with
              Path := if v.Network = "grpc" then stripSlash v.Path else v.Path
              TlsFingerprint :=
                if v.TLS = "tls" ∧ v.TlsFingerprint = "" then "chrome"
                else v.TlsFingerprint }) :=
  ⟨Trojan.craft_state, Vmess.build_state⟩

theorem Trojan.craft_out (t : Trojan) (allowInsecure : Bool) :
    ∃ o : Outbound,
      (Trojan.CraftOutboundOptions t allowInsecure).out = some o
      ∧ o.TrojanOptions.TLS.Enabled = decide (t.Security = "tls" ∨ t.Security = "reality")
      ∧ o.TrojanOptions.TLS.ALPN
          = (if t.Security = "tls" ∨ t.Security = "reality" then
              (if t.ALPN ≠ "" ∧ t.ALPN ≠ "none" then Split t.ALPN "," else ["http/1.1"])
             else [])
      ∧ o.TrojanOptions.TLS.UTLS
          = some
              { Enabled := true
                Fingerprint :=
                  if t.Security = "tls" ∨ t.Security = "reality" then
                    (if t.TlsFingerprint ≠ "" ∧ t.TlsFingerprint ≠ "none" then t.TlsFingerprint
                     else "chrome")
                  else "" }
      ∧ o.TrojanOptions.TLS.Insecure
          = (if t.Security = "tls" ∨ t.Security = "reality" then
              (if t.AllowInsecure ≠ "" then
                (if t.AllowInsecure = "1" ∨ t.AllowInsecure = "true" then true
                 else allowInsecure)
               else allowInsecure)
             else allowInsecure) := by
  refine ⟨_, rfl, ?_, ?_, ?_, ?_⟩
  · rfl
  · by_cases h : t.Security = "tls" ∨ t.Security = "reality" <;> simp [h]
  · by_cases h : t.Security = "tls" ∨ t.Security = "reality" <;> simp [h]
  · by_cases h : t.Security = "tls" ∨ t.Security = "reality" <;> simp [h]

/-- C18: the TLS block built by `CraftOutboundOptions` has `Insecure` equal to
`allowInsecure` or-ed with "the descriptor's `AllowInsecure` is `1` or `true`"
when `Security` is `tls` or `reality`, and equal to `allowInsecure` when it is
neither. -/
theorem trojan_insecure (t : Trojan) (allowInsecure : Bool) :
    ∃ o : Outbound,
      (Trojan.CraftOutboundOptions t allowInsecure).out = some o
      ∧ o.TrojanOptions.TLS.Insecure
          = (if t.Security = "tls" ∨ t.Security = "reality" then
              (allowInsecure || decide (t.AllowInsecure = "1" ∨ t.AllowInsecure = "true"))
             else allowInsecure) := by
  obtain ⟨o, ho, _, _, _, hi⟩ := Trojan.craft_out t allowInsecure
  refine ⟨o, ho, ?_⟩
  rw [hi]
  by_cases h : t.Security = "tls" ∨ t.Security = "reality"
  · rw [if_pos h, if_pos h]
    by_cases h1 : t.AllowInsecure = "1" ∨ t.AllowInsecure = "true"
    · have hne : t.AllowInsecure ≠ "" := by
        rcases h1 with h1 | h1 <;> rw [h1] <;> decide
      simp [h1, hne]
    · by_cases h0 : t.AllowInsecure = "" <;> simp [h1, h0]
  · rw [if_neg h, if_neg h]

theorem Vmess.build_tls (jsonMarshal : List String → String) (v : Vmess) (allowInsecure : Bool)
    (h : v.TLS = "tls") :
    ∃ (o : OutboundDetourConfig) (s : StreamConfig),
      (Vmess.BuildOutboundDetourConfig jsonMarshal v allowInsecure).out = some o
      ∧ o.StreamSetting = some s
      ∧ s.TLSSettings
          = some
              { Fingerprint := if v.TlsFingerprint = "" then "chrome" else v.TlsFingerprint
                Insecure := allowInsecure
                ServerName := if v.SNI ≠ "" then v.SNI else v.Host
                ALPN := if v.ALPN ≠ "" then some [v.ALPN] else none } := by
  unfold Vmess.BuildOutboundDetourConfig
  by_cases hg : v.Network = "grpc" <;> by_cases hf : v.TlsFingerprint = "" <;>
    simp [hg, hf, h]

/-- C19 fails on the code: for a Vmess descriptor with `TLS` `tls` whose
`AllowInsecure` flag is set to `1`, built with `allowInsecure` false, the TLS
settings have `Insecure` false. -/
theorem vmess_insecure_ignores_flag :
    ∃ (o : OutboundDetourConfig) (s : StreamConfig) (tls : TLSConfig),
      (Vmess.BuildOutboundDetourConfig demoMarshal
          { OrigLink := "vmess://link", Address := "host", Port := "443", TLS := "tls",
            AllowInsecure := "1" } false).out = some o
      ∧ o.StreamSetting = some s
      ∧ s.TLSSettings = some tls
      ∧ tls.Insecure = false := by
  obtain ⟨o, s, ho, hs, ht⟩ := Vmess.build_tls demoMarshal
    { OrigLink := "vmess://link", Address := "host", Port := "443", TLS := "tls",
      AllowInsecure := "1" } false rfl
  exact ⟨o, s, _, ho, hs, ht, rfl⟩

/-- C20: for a Trojan descriptor whose `Security` is `tls` or `reality`, the TLS
block built by `CraftOutboundOptions` is enabled, its ALPN is the single entry
`http/1.1` when the descriptor's ALPN is empty or `none` and the pieces of the
descriptor's ALPN between commas otherwise, and its uTLS fingerprint is
`chrome` when the descriptor's fingerprint is empty or `none` and the
descriptor's fingerprint otherwise. -/
theorem trojan_tls_block (t : Trojan) (allowInsecure : Bool)
    (hs : t.Security = "tls" ∨ t.Security = "reality") :
    ∃ (o : Outbound) (u : OutboundUTLSOptions),
      (Trojan.CraftOutboundOptions t allowInsecure).out = some o
      ∧ o.TrojanOptions.TLS.Enabled = true
      ∧ o.TrojanOptions.TLS.ALPN
          = (if t.ALPN = "" ∨ t.ALPN = "none" then ["http/1.1"] else Split t.ALPN ",")
      ∧ o.TrojanOptions.TLS.UTLS = some u
      ∧ u.Enabled = true
      ∧ u.Fingerprint
          = (if t.TlsFingerprint = "" ∨ t.TlsFingerprint = "none" then "chrome"
             else t.TlsFingerprint) := by
  obtain ⟨o, ho, he, ha, hu, _⟩ := Trojan.craft_out t allowInsecure
  refine ⟨o, _, ho, ?_, ?_, hu, rfl, ?_⟩
  · rw [he]; exact decide_eq_true hs
  · rw [ha, if_pos hs]
    by_cases h1 : t.ALPN = "" <;> by_cases h2 : t.ALPN = "none" <;> simp [h1, h2]
  · show (if t.Security = "tls" ∨ t.Security = "reality" then
            (if t.TlsFingerprint ≠ "" ∧ t.TlsFingerprint ≠ "none" then t.TlsFingerprint
             else "chrome")
          else "") = _
    rw [if_pos hs]
    by_cases h1 : t.TlsFingerprint = "" <;> by_cases h2 : t.TlsFingerprint = "none" <;>
      simp [h1, h2]

/-- C20 on a descriptor with security `tls`, ALPN `h2,http/1.1` and fingerprint
`firefox`: the TLS block is enabled, with the two ALPN entries and the
fingerprint `firefox`. -/
theorem trojan_tls_block_witness :
    ∃ (o : Outbound) (u : OutboundUTLSOptions),
      (Trojan.CraftOutboundOptions
          { OrigLink := "trojan://pw@host:443?alpn=h2,http/1.1&fp=firefox", Security := "tls",
            ALPN := "h2,http/1.1", TlsFingerprint := "firefox" } false).out = some o
      ∧ o.TrojanOptions.TLS.Enabled = true
      ∧ o.TrojanOptions.TLS.ALPN = ["h2", "http/1.1"]
      ∧ o.TrojanOptions.TLS.UTLS = some u
      ∧ u.Enabled = true
      ∧ u.Fingerprint = "firefox" :=
  trojan_tls_block
    { OrigLink := "trojan://pw@host:443?alpn=h2,http/1.1&fp=firefox", Security := "tls",
      ALPN := "h2,http/1.1", TlsFingerprint := "firefox" } false (Or.inl rfl)

/-- C18 on two descriptors with security `tls` built with `allowInsecure`
false: the flag `1` gives `Insecure` true, no flag gives `Insecure` false. -/
theorem trojan_insecure_witness :
    (∃ o : Outbound,
        (Trojan.CraftOutboundOptions
            { OrigLink := "trojan://pw@host:443?allowInsecure=1", Security := "tls",
              AllowInsecure := "1" } false).out = some o
        ∧ o.TrojanOptions.TLS.Insecure = true)
    ∧ (∃ o : Outbound,
        (Trojan.CraftOutboundOptions
            { OrigLink := "trojan://pw@host:443", Security := "tls" } false).out = some o
        ∧ o.TrojanOptions.TLS.Insecure = false) :=
  ⟨trojan_insecure
      { OrigLink := "trojan://pw@host:443?allowInsecure=1", Security := "tls",
        AllowInsecure := "1" } false,
    trojan_insecure { OrigLink := "trojan://pw@host:443", Security := "tls" } false⟩

/-! ### The builders: ALPN, server name -/

/-- C21, as stated, fails: for a Vmess descriptor with `TLS` `tls` and an empty
`ALPN`, the TLS settings built by `BuildOutboundDetourConfig` do not carry the
list with the single entry `http/1.1`. -/
theorem vmess_alpn_not_defaulted :
    ¬ ∃ (o : OutboundDetourConfig) (s : StreamConfig) (tls : TLSConfig),
        (Vmess.BuildOutboundDetourConfig demoMarshal
            { OrigLink := "vmess://link", Address := "host", Port := "443", TLS := "tls" }
            false).out = some o
        ∧ o.StreamSetting = some s
        ∧ s.TLSSettings = some tls
        ∧ tls.ALPN = some ["http/1.1"] := by
  rintro ⟨o, s, tls, ho, hs, ht, ha⟩
  obtain ⟨o2, s2, ho2, hs2, ht2⟩ := Vmess.build_tls demoMarshal
    { OrigLink := "vmess://link", Address := "host", Port := "443", TLS := "tls" } false rfl
  rw [ho2] at ho
  injection ho with ho
  subst ho
  rw [hs2] at hs
  injection hs with hs
  subst hs
  rw [ht2] at ht
  injection ht with ht
  rw [← ht] at ha
  exact absurd ha (by decide)

/-- C21, amended: for a Vmess descriptor with `TLS` `tls`, the TLS settings
built by `BuildOutboundDetourConfig` carry no ALPN list when the descriptor's
`ALPN` is empty, and the list with the descriptor's `ALPN` as its single entry
otherwise. -/
theorem vmess_alpn (jsonMarshal : List String → String) (v : Vmess) (allowInsecure : Bool)
    (h : v.TLS = "tls") :
    ∃ (o : OutboundDetourConfig) (s : StreamConfig) (tls : TLSConfig),
      (Vmess.BuildOutboundDetourConfig jsonMarshal v allowInsecure).out = some o
      ∧ o.StreamSetting = some s
      ∧ s.TLSSettings = some tls
      ∧ (v.ALPN = "" → tls.ALPN = none)
      ∧ (v.ALPN ≠ "" → tls.ALPN = some [v.ALPN]) := by
  obtain ⟨o, s, ho, hs, ht⟩ := Vmess.build_tls jsonMarshal v allowInsecure h
  refine ⟨o, s, _, ho, hs, ht, ?_, ?_⟩
  · intro h0
    show (if v.ALPN ≠ "" then some [v.ALPN] else none) = none
    rw [if_neg (fun hc => hc h0)]
  · intro h0
    show (if v.ALPN ≠ "" then some [v.ALPN] else none) = some [v.ALPN]
    rw [if_pos h0]

/-- C21, amended, on a descriptor with `TLS` `tls` and `ALPN` `h2`: the built
list is the single entry `h2`. -/
theorem vmess_alpn_witness :
    ∃ (o : OutboundDetourConfig) (s : StreamConfig) (tls : TLSConfig),
      (Vmess.BuildOutboundDetourConfig demoMarshal
          { OrigLink := "vmess://link", Address := "host", Port := "443", TLS := "tls",
            ALPN := "h2" } false).out = some o
      ∧ o.StreamSetting = some s
      ∧ s.TLSSettings = some tls
      ∧ tls.ALPN = some ["h2"] :=
  match vmess_alpn demoMarshal
      { OrigLink := "vmess://link", Address := "host", Port := "443", TLS := "tls",
        ALPN := "h2" } false rfl with
  | ⟨o, s, tls, ho, hs, ht, _, ha⟩ => ⟨o, s, tls, ho, hs, ht, ha (by decide)⟩

theorem Trojan.craft_serverName (t : Trojan) (allowInsecure : Bool) :
    ∃ o : Outbound,
      (Trojan.CraftOutboundOptions t allowInsecure).out = some o
      ∧ o.TrojanOptions.TLS.ServerName = t.SNI := by
  refine ⟨_, rfl, ?_⟩
  by_cases h : t.Type_ = "grpc" <;> simp [h]

/-- C22 fails on the code for Trojan: the TLS block built by
`CraftOutboundOptions` has the descriptor's `SNI` as its server name whether it
is set or not, so an unset `SNI` gives an empty server name and not the `Host`;
the TLS settings built for Vmess have the `SNI` when it is set and the `Host`
otherwise. -/
theorem tls_server_name :
    (∀ (t : Trojan) (allowInsecure : Bool),
        ∃ o : Outbound,
          (Trojan.CraftOutboundOptions t allowInsecure).out = some o
          ∧ o.TrojanOptions.TLS.ServerName = t.SNI)
    ∧ (∀ (jsonMarshal : List String → String) (v : Vmess) (allowInsecure : Bool),
        v.TLS = "tls" →
        ∃ (o : OutboundDetourConfig) (s : StreamConfig) (tls : TLSConfig),
          (Vmess.BuildOutboundDetourConfig jsonMarshal v allowInsecure).out = some o
          ∧ o.StreamSetting = some s
          ∧ s.TLSSettings = some tls
          ∧ tls.ServerName = if v.SNI ≠ "" then v.SNI else v.Host)
    ∧ (∃ o : Outbound,
        (Trojan.CraftOutboundOptions
            { OrigLink := "trojan://pw@host:443?security=tls&type=ws&host=cdn.example.com",
              Password := "pw", Address := "host", Port := "443", Security := "tls",
              Type_ := "ws", Host := "cdn.example.com" } false).out = some o
        ∧ o.TrojanOptions.TLS.Enabled = true
        ∧ o.TrojanOptions.TLS.ServerName = "") := by
  refine ⟨Trojan.craft_serverName, ?_, ⟨_, rfl, rfl, rfl⟩⟩
  intro jsonMarshal v allowInsecure h
  obtain ⟨o, s, ho, hs, ht⟩ := Vmess.build_tls jsonMarshal v allowInsecure h
  exact ⟨o, s, _, ho, hs, ht, rfl⟩

/-! ### `Vmess.Parse` on short links -/

theorem method2Fill_ne_fault (L : Lib) (v : Vmess) (uri : URL) :
    method2Fill L v uri ≠ Outcome.fault := by
  rcases hs : L.splitHostPort uri.Host with ⟨host, port, err⟩
  cases err with
  | none =>
    rw [method2Fill_of_split L v uri host port hs]
    exact fun hc => Outcome.noConfusion hc
  | some e =>
    unfold method2Fill
    rw [hs]
    exact fun hc => Outcome.noConfusion hc

theorem method2_ne_fault (L : Lib) (v : Vmess) (link : String) :
    method2 L v link ≠ Outcome.fault := by
  cases hu : L.urlParse link with
  | error e => simp only [method2, hu]; exact fun hc => Outcome.noConfusion hc
  | ok uri =>
    cases hb : L.base64Decode uri.Host with
    | error e => simp only [method2, hu, hb]; exact fun hc => Outcome.noConfusion hc
    | ok decoded =>
      cases hu2 : L.urlParse (L.VmessIdentifier ++ "://" ++ decoded ++ "?" ++ uri.RawQuery) with
      | error e => simp only [method2, hu, hb, hu2]; exact fun hc => Outcome.noConfusion hc
      | ok uri2 =>
        simp only [method2, hu, hb, hu2]
        exact method2Fill_ne_fault L v uri2

theorem method1_fault_iff (L : Lib) (v : Vmess) (link : String) :
    method1 L v link = Outcome.fault ↔ link.length < 8 := by
  by_cases hl : link.length < 8
  · simp [method1, hl]
  · refine ⟨fun h => ?_, fun h => absurd h hl⟩
    exfalso
    cases hb : L.base64Decode (sliceFrom link 8) with
    | error e =>
      simp only [method1, hl, if_false, hb] at h
      all_goals cases h
    | ok decoded =>
      rcases hj : L.jsonUnmarshal decoded v with ⟨err, u⟩
      cases err with
      | some e =>
        simp only [method1, hl, if_false, hb, hj] at h
        all_goals cases h
      | none =>
        simp only [method1, hl, if_false, hb, hj] at h
        split_ifs at h

theorem Vmess.parse_fault_iff (L : Lib) (v : Vmess)
    (hp : HasPrefix v.OrigLink L.VmessIdentifier = true) :
    Vmess.Parse L v = Outcome.fault ↔ v.OrigLink.length < 8 := by
  rw [← method1_fault_iff L v v.OrigLink]
  unfold Vmess.Parse
  rw [hp]
  simp only [Bool.true_eq_false, if_false]
  cases h1 : method1 L v v.OrigLink with
  | fault => simp
  | ret err v1 =>
    cases err with
    | none => simp
    | some e1 =>
      simp only
      have h2 := method2_ne_fault L v1 v1.OrigLink
      cases hm : method2 L v1 v1.OrigLink with
      | fault => exact absurd hm h2
      | ret err2 v2 =>
        cases err2 with
        | none => simp
        | some e2 => simp

/-- C26 fails on the code: a link that begins with the identifier `vmess` but
has fewer than 8 bytes passes the check of `Vmess.Parse`, and `method1` then
faults on the slice `link[8:]`; `Parse` faults on exactly these links. -/
theorem vmess_parse_short_link_faults :
    (∀ (L : Lib) (v : Vmess), HasPrefix v.OrigLink L.VmessIdentifier = true →
        (Vmess.Parse L v = Outcome.fault ↔ v.OrigLink.length < 8))
    ∧ HasPrefix (NewVmess "vmess:/").OrigLink sampleLib.VmessIdentifier = true
    ∧ Vmess.Parse sampleLib (NewVmess "vmess:/") = Outcome.fault :=
  ⟨Vmess.parse_fault_iff, by decide, by rfl⟩

/-! ### The builders: gRPC service name, repeated calls, port -/

theorem slash_data (rest : String) : ("/" ++ rest).data = '/' :: rest.data := by
  rw [String.data_append]
  rfl

theorem length_eq_data (s : String) : s.length = s.data.length := rfl

theorem stripSlash_slash (rest : String) : stripSlash ("/" ++ rest) = rest := by
  unfold stripSlash sliceFrom
  rw [length_eq_data, slash_data]
  simp

theorem stripSlash_of_not_slash (s : String) (h : HasPrefix s "/" = false) :
    stripSlash s = s := by
  unfold stripSlash sliceFrom
  unfold HasPrefix at h
  rw [length_eq_data]
  cases hd : s.data with
  | nil => simp
  | cons c cs =>
    rw [hd] at h
    have hc : c ≠ '/' := by
      intro hc
      subst hc
      simp [List.isPrefixOf] at h
    simp [hc]

theorem stripSlash_idem (s : String) (h : HasPrefix s "//" = false) :
    stripSlash (stripSlash s) = stripSlash s := by
  by_cases h1 : HasPrefix s "/" = true
  · unfold HasPrefix at h h1
    cases hd : s.data with
    | nil => rw [hd] at h1; simp [List.isPrefixOf] at h1
    | cons c cs =>
      rw [hd] at h h1
      have hc : c = '/' := by
        by_contra hne
        simp [List.isPrefixOf] at h1
        exact hne h1.symm
      subst hc
      have hs : s = "/" ++ String.mk cs := by
        apply String.ext
        rw [slash_data, hd]
      rw [hs, stripSlash_slash]
      apply stripSlash_of_not_slash
      unfold HasPrefix
      cases cs with
      | nil => rfl
      | cons d ds =>
        have hdne : d ≠ '/' := by
          intro hdd
          subst hdd
          simp [List.isPrefixOf] at h
        simp [List.isPrefixOf]
        exact fun e => hdne e.symm
  · have h1' : HasPrefix s "/" = false := by
      cases hv : HasPrefix s "/" with
      | false => rfl
      | true => exact absurd hv h1
    rw [stripSlash_of_not_slash s h1', stripSlash_of_not_slash s h1']

theorem Trojan.craft_grpc (t : Trojan) (allowInsecure : Bool) (h : t.Type_ = "grpc") :
    ∃ o : Outbound,
      (Trojan.CraftOutboundOptions t allowInsecure).out = some o
      ∧ o.TrojanOptions.Transport.Type_ = "grpc"
      ∧ o.TrojanOptions.Transport.GRPCOptions.ServiceName = stripSlash t.ServiceName := by
  refine ⟨_, rfl, ?_, ?_⟩
  · simp [Trojan.transport, h]
  · simp [Trojan.transport, h]

theorem Vmess.build_grpc (jsonMarshal : List String → String) (v : Vmess) (allowInsecure : Bool)
    (h : v.Network = "grpc") :
    ∃ (o : OutboundDetourConfig) (s : StreamConfig) (g : GRPCConfig),
      (Vmess.BuildOutboundDetourConfig jsonMarshal v allowInsecure).out = some o
      ∧ o.StreamSetting = some s
      ∧ s.GRPCSettings = some g
      ∧ g.ServiceName = stripSlash v.Path := by
  unfold Vmess.BuildOutboundDetourConfig
  by_cases ht : v.TLS = "tls" <;> simp [Vmess.stream, h, ht]

/-- C24: for a Trojan descriptor with `Type` `grpc` the service name of the
built gRPC block is the descriptor's `ServiceName` without its leading `/` when
it begins with `/`, and the `ServiceName` as it is otherwise; for a Vmess
descriptor with `Network` `grpc` the built service name is the descriptor's
`Path` treated the same way. -/
theorem grpc_service_name :
    (∀ (t : Trojan) (allowInsecure : Bool), t.Type_ = "grpc" →
        ∃ o : Outbound,
          (Trojan.CraftOutboundOptions t allowInsecure).out = some o
          ∧ (∀ rest : String, t.ServiceName = "/" ++ rest →
              o.TrojanOptions.Transport.GRPCOptions.ServiceName = rest)
          ∧ (HasPrefix t.ServiceName "/" = false →
              o.TrojanOptions.Transport.GRPCOptions.ServiceName = t.ServiceName))
    ∧ (∀ (jsonMarshal : List String → String) (v : Vmess) (allowInsecure : Bool),
        v.Network = "grpc" →
        ∃ (o : OutboundDetourConfig) (s : StreamConfig) (g : GRPCConfig),
          (Vmess.BuildOutboundDetourConfig jsonMarshal v allowInsecure).out = some o
          ∧ o.StreamSetting = some s
          ∧ s.GRPCSettings = some g
          ∧ (∀ rest : String, v.Path = "/" ++ rest → g.ServiceName = rest)
          ∧ (HasPrefix v.Path "/" = false → g.ServiceName = v.Path)) := by
  constructor
  · intro t allowInsecure h
    obtain ⟨o, ho, _, hs⟩ := Trojan.craft_grpc t allowInsecure h
    refine ⟨o, ho, ?_, ?_⟩
    · intro rest hr
      rw [hs, hr, stripSlash_slash]
    · intro hn
      rw [hs, stripSlash_of_not_slash _ hn]
  · intro jsonMarshal v allowInsecure h
    obtain ⟨o, s, g, ho, hs, hg, hn⟩ := Vmess.build_grpc jsonMarshal v allowInsecure h
    refine ⟨o, s, g, ho, hs, hg, ?_, ?_⟩
    · intro rest hr
      rw [hn, hr, stripSlash_slash]
    · intro hp
      rw [hn, stripSlash_of_not_slash _ hp]

/-- C24 on the Trojan descriptor with service name `/svc` and on the Vmess
descriptor with path `/svc`, both `grpc`: the built service name is `svc`. -/
theorem grpc_service_name_witness :
    (∃ o : Outbound,
        (Trojan.CraftOutboundOptions
            { OrigLink := "trojan://pw@host:443?type=grpc&serviceName=/svc", Type_ := "grpc",
              ServiceName := "/svc" } false).out = some o
        ∧ o.TrojanOptions.Transport.GRPCOptions.ServiceName = "svc")
    ∧ (∃ (o : OutboundDetourConfig) (s : StreamConfig) (g : GRPCConfig),
        (Vmess.BuildOutboundDetourConfig demoMarshal
            { OrigLink := "vmess://link", Network := "grpc", Path := "/svc" } false).out
          = some o
        ∧ o.StreamSetting = some s
        ∧ s.GRPCSettings = some g
        ∧ g.ServiceName = "svc") :=
  ⟨match grpc_service_name.1
        { OrigLink := "trojan://pw@host:443?type=grpc&serviceName=/svc", Type_ := "grpc",
          ServiceName := "/svc" } false rfl with
    | ⟨o, ho, hs, _⟩ => ⟨o, ho, hs "svc" (by decide)⟩,
   match grpc_service_name.2 demoMarshal
        { OrigLink := "vmess://link", Network := "grpc", Path := "/svc" } false rfl with
    | ⟨o, s, g, ho, hs, hg, hn, _⟩ => ⟨o, s, g, ho, hs, hg, hn "svc" (by decide)⟩⟩

theorem stripSlash_twice_ne (s : String) (h : HasPrefix s "//" = true) :
    stripSlash (stripSlash s) ≠ stripSlash s := by
  unfold HasPrefix at h
  cases hd : s.data with
  | nil => rw [hd] at h; simp [List.isPrefixOf] at h
  | cons c cs =>
    cases cs with
    | nil => rw [hd] at h; simp [List.isPrefixOf] at h
    | cons d ds =>
      rw [hd] at h
      have hcd : c = '/' ∧ d = '/' := by
        simp [List.isPrefixOf] at h
        exact ⟨h.1.symm, h.2.symm⟩
      obtain ⟨hc, hd2⟩ := hcd
      subst hc
      subst hd2
      have hs : s = "/" ++ ("/" ++ String.mk ds) := by
        apply String.ext
        rw [slash_data, slash_data, hd]
      rw [hs, stripSlash_slash, stripSlash_slash]
      intro he
      have hl := congrArg String.length he
      rw [length_eq_data, length_eq_data, slash_data] at hl
      simp at hl

theorem stripSlash_idem_iff (s : String) :
    stripSlash (stripSlash s) = stripSlash s ↔ HasPrefix s "//" = false := by
  constructor
  · intro h
    cases hp : HasPrefix s "//" with
    | false => rfl
    | true => exact absurd h (stripSlash_twice_ne s hp)
  · exact stripSlash_idem s

theorem Trojan.craft_out_grpc (t : Trojan) (allowInsecure : Bool) (h : t.Type_ = "grpc")
    (x y : String) :
    (Trojan.CraftOutboundOptions { t with ServiceName := x } allowInsecure).out
        = (Trojan.CraftOutboundOptions { t with ServiceName := y } allowInsecure).out
      ↔ stripSlash x = stripSlash y := by
  unfold Trojan.CraftOutboundOptions
  simp [Trojan.transport, h]

theorem Trojan.craft_again (t : Trojan) (allowInsecure : Bool) :
    (Trojan.CraftOutboundOptions (Trojan.CraftOutboundOptions t allowInsecure).state
        allowInsecure).out = (Trojan.CraftOutboundOptions t allowInsecure).out
      ↔ ¬ (t.Type_ = "grpc" ∧ HasPrefix t.ServiceName "//" = true) := by
  rw [Trojan.craft_state]
  by_cases h : t.Type_ = "grpc"
  · rw [if_pos h]
    have e := Trojan.craft_out_grpc t allowInsecure h (stripSlash t.ServiceName) t.ServiceName
    have et : ({ t with ServiceName := t.ServiceName } : Trojan) = t := rfl
    rw [et] at e
    rw [e, stripSlash_idem_iff]
    simp [h]
  · rw [if_neg h]
    have et : ({ t with ServiceName := t.ServiceName } : Trojan) = t := rfl
    rw [et]
    simp [h]
theorem Vmess.build_out_eq (jsonMarshal : List String → String) (v : Vmess)
    (allowInsecure : Bool) :
    (Vmess.BuildOutboundDetourConfig jsonMarshal v allowInsecure).out
      = some
          { Tag := "proxy"
            Protocol := "vmess"
            StreamSetting := some
              (if v.TLS = "tls" then
                { Vmess.stream jsonMarshal v
                    (if v.Network = "grpc" then stripSlash v.Path else v.Path)
                    { Network := v.Network, Security := v.TLS } with
                  TLSSettings := some
                    { Fingerprint := if v.TlsFingerprint = "" then "chrome" else v.TlsFingerprint
                      Insecure := allowInsecure
                      ServerName := if v.SNI ≠ "" then v.SNI else v.Host
                      ALPN := if v.ALPN ≠ "" then some [v.ALPN] else none } }
              else
                Vmess.stream jsonMarshal v
                  (if v.Network = "grpc" then stripSlash v.Path else v.Path)
                  { Network := v.Network, Security := v.TLS })
            Settings := some (vnextSettings v.Address v.Port v.ID v.Aid v.Security) } := by
  unfold Vmess.BuildOutboundDetourConfig
  cases v
  dsimp only
  split_ifs <;> rfl

theorem Vmess.stream_fingerprint (jsonMarshal : List String → String) (v : Vmess)
    (f path : String) (s : StreamConfig) :
    Vmess.stream jsonMarshal { v with TlsFingerprint := f } path s
      = Vmess.stream jsonMarshal v path s := rfl

theorem Vmess.stream_path (jsonMarshal : List String → String) (v : Vmess)
    (h : v.Network = "grpc") (x path : String) (s : StreamConfig) :
    Vmess.stream jsonMarshal { v with Path := x } path s
      = { s with
          GRPCSettings := some
            { InitialWindowsSize := 65536
              HealthCheckTimeout := 20
              MultiMode := decide (v.Type_ ≠ "gun")
              IdleTimeout := 60
              Authority := v.Host
              ServiceName := path } } := by
  unfold Vmess.stream
  simp [h]

theorem Vmess.build_out_fingerprint (jsonMarshal : List String → String) (v : Vmess)
    (allowInsecure : Bool) :
    (Vmess.BuildOutboundDetourConfig jsonMarshal
        { v with
          TlsFingerprint :=
            if v.TLS = "tls" ∧ v.TlsFingerprint = "" then "chrome" else v.TlsFingerprint }
        allowInsecure).out
      = (Vmess.BuildOutboundDetourConfig jsonMarshal v allowInsecure).out := by
  rw [Vmess.build_out_eq, Vmess.build_out_eq]
  dsimp only
  rw [Vmess.stream_fingerprint]
  by_cases ht : v.TLS = "tls"
  · by_cases hf : v.TlsFingerprint = ""
    · simp [ht, hf]
    · simp [ht, hf]
  · simp [ht]

theorem Vmess.build_out_grpc (jsonMarshal : List String → String) (v : Vmess)
    (allowInsecure : Bool) (h : v.Network = "grpc") (x y : String) :
    (Vmess.BuildOutboundDetourConfig jsonMarshal { v with Path := x } allowInsecure).out
        = (Vmess.BuildOutboundDetourConfig jsonMarshal { v with Path := y } allowInsecure).out
      ↔ stripSlash x = stripSlash y := by
  rw [Vmess.build_out_eq, Vmess.build_out_eq]
  dsimp only
  rw [Vmess.stream_path jsonMarshal v h, Vmess.stream_path jsonMarshal v h]
  by_cases ht : v.TLS = "tls" <;> simp [h, ht]

theorem Vmess.build_again (jsonMarshal : List String → String) (v : Vmess)
    (allowInsecure : Bool) :
    (Vmess.BuildOutboundDetourConfig jsonMarshal
        (Vmess.BuildOutboundDetourConfig jsonMarshal v allowInsecure).state allowInsecure).out
        = (Vmess.BuildOutboundDetourConfig jsonMarshal v allowInsecure).out
      ↔ ¬ (v.Network = "grpc" ∧ HasPrefix v.Path "//" = true) := by
  rw [Vmess.build_state]
  have e1 := Vmess.build_out_fingerprint jsonMarshal
    { v with Path := if v.Network = "grpc" then stripSlash v.Path else v.Path } allowInsecure
  rw [e1]
  have et : ({ v with Path := v.Path } : Vmess) = v := rfl
  by_cases h : v.Network = "grpc"
  · rw [if_pos h]
    have e := Vmess.build_out_grpc jsonMarshal v allowInsecure h (stripSlash v.Path) v.Path
    rw [et] at e
    rw [e, stripSlash_idem_iff]
    simp [h]
  · rw [if_neg h, et]
    simp [h]
/-- C27, as stated, fails: for the `grpc` Trojan descriptor with service name
`//svc` the first call of `CraftOutboundOptions` builds the service name `/svc`
and the second call, on the descriptor the first one left, builds `svc`; the
`grpc` Vmess descriptor with path `//svc` behaves the same way under
`BuildOutboundDetourConfig`. -/
theorem build_twice_differs :
    (∃ o1 o2 : Outbound,
        (Trojan.CraftOutboundOptions
          { OrigLink := "trojan://pw@host:443?type=grpc&serviceName=//svc", Type_ := "grpc",
            ServiceName := "//svc" } false).out = some o1
        ∧ (Trojan.CraftOutboundOptions
            (Trojan.CraftOutboundOptions
              { OrigLink := "trojan://pw@host:443?type=grpc&serviceName=//svc", Type_ := "grpc",
                ServiceName := "//svc" } false).state false).out = some o2
        ∧ o1.TrojanOptions.Transport.GRPCOptions.ServiceName = "/svc"
        ∧ o2.TrojanOptions.Transport.GRPCOptions.ServiceName = "svc"
        ∧ o1 ≠ o2)
    ∧ (∃ (o1 o2 : OutboundDetourConfig) (s1 s2 : StreamConfig) (g1 g2 : GRPCConfig),
        (Vmess.BuildOutboundDetourConfig demoMarshal
          { OrigLink := "vmess://link", Network := "grpc", Path := "//svc" } false).out
          = some o1
        ∧ (Vmess.BuildOutboundDetourConfig demoMarshal
            (Vmess.BuildOutboundDetourConfig demoMarshal
              { OrigLink := "vmess://link", Network := "grpc", Path := "//svc" } false).state
            false).out = some o2
        ∧ o1.StreamSetting = some s1 ∧ s1.GRPCSettings = some g1
        ∧ o2.StreamSetting = some s2 ∧ s2.GRPCSettings = some g2
        ∧ g1.ServiceName = "/svc"
        ∧ g2.ServiceName = "svc"
        ∧ o1 ≠ o2) := by
  refine ⟨⟨_, _, rfl, rfl, by decide, by decide, ?_⟩,
    ⟨_, _, _, _, _, _, rfl, rfl, rfl, rfl, rfl, rfl, by decide, by decide, ?_⟩⟩
  · intro h
    exact absurd
      (congrArg (fun o : Outbound => o.TrojanOptions.Transport.GRPCOptions.ServiceName) h)
      (by decide)
  · intro h
    exact absurd
      (congrArg
        (fun o : OutboundDetourConfig =>
          (o.StreamSetting.bind (fun s => s.GRPCSettings)).map (fun g => g.ServiceName)) h)
      (by decide)

/-- C27, amended: a second call of `CraftOutboundOptions`, on the Trojan
descriptor as the first call left it, returns a configuration equal to the
first one exactly when it is not the case that `Type` is `grpc` and
`ServiceName` begins with `//`; a second call of `BuildOutboundDetourConfig` on
a Vmess descriptor returns a configuration equal to the first one exactly when
it is not the case that `Network` is `grpc` and `Path` begins with `//`. -/
theorem build_repeatable :
    (∀ (t : Trojan) (allowInsecure : Bool),
        (Trojan.CraftOutboundOptions (Trojan.CraftOutboundOptions t allowInsecure).state
            allowInsecure).out = (Trojan.CraftOutboundOptions t allowInsecure).out
          ↔ ¬ (t.Type_ = "grpc" ∧ HasPrefix t.ServiceName "//" = true))
    ∧ (∀ (jsonMarshal : List String → String) (v : Vmess) (allowInsecure : Bool),
        (Vmess.BuildOutboundDetourConfig jsonMarshal
            (Vmess.BuildOutboundDetourConfig jsonMarshal v allowInsecure).state
            allowInsecure).out
            = (Vmess.BuildOutboundDetourConfig jsonMarshal v allowInsecure).out
          ↔ ¬ (v.Network = "grpc" ∧ HasPrefix v.Path "//" = true)) :=
  ⟨Trojan.craft_again, Vmess.build_again⟩

/-- C27, amended, on the `grpc` Trojan descriptor with service name `/svc` and
the `grpc` Vmess descriptor with path `/svc` and TLS: the second call returns
the configuration of the first. -/
theorem build_repeatable_witness :
    (Trojan.CraftOutboundOptions
        (Trojan.CraftOutboundOptions
          { OrigLink := "trojan://pw@host:443?type=grpc&serviceName=/svc", Type_ := "grpc",
            ServiceName := "/svc" } false).state false).out
      = (Trojan.CraftOutboundOptions
          { OrigLink := "trojan://pw@host:443?type=grpc&serviceName=/svc", Type_ := "grpc",
            ServiceName := "/svc" } false).out
    ∧ (Vmess.BuildOutboundDetourConfig demoMarshal
        (Vmess.BuildOutboundDetourConfig demoMarshal
          { OrigLink := "vmess://link", Network := "grpc", Path := "/svc", TLS := "tls" }
          false).state false).out
      = (Vmess.BuildOutboundDetourConfig demoMarshal
          { OrigLink := "vmess://link", Network := "grpc", Path := "/svc", TLS := "tls" }
          false).out :=
  ⟨(build_repeatable.1
      { OrigLink := "trojan://pw@host:443?type=grpc&serviceName=/svc", Type_ := "grpc",
        ServiceName := "/svc" } false).mpr (by decide),
   (build_repeatable.2 demoMarshal
      { OrigLink := "vmess://link", Network := "grpc", Path := "/svc", TLS := "tls" }
      false).mpr (by decide)⟩

theorem digits_foldl_none (cs : List Char) :
    cs.foldl
      (fun (acc : Option Nat) c =>
        match acc with
        | none => none
        | some n => if c.isDigit = true then some (n * 10 + (c.toNat - 48)) else none)
      none = none := by
  induction cs with
  | nil => rfl
  | cons c cs ih => exact ih

theorem digitsValue_not_digit (c : Char) (cs : List Char) (h : c.isDigit = false) :
    digitsValue (c :: cs) = none := by
  unfold digitsValue
  simp only [List.foldl_cons, h]
  exact digits_foldl_none cs

theorem Atoi_of_digits (s : String) (n : Nat) (h : digitsValue s.data = some n)
    (hn : n < 2 ^ 63) : Atoi s = ((n : Int), none) := by
  unfold Atoi
  split
  · rename_i ds hd
    rw [hd, digitsValue_not_digit _ _ (by decide)] at h
    cases h
  · rename_i ds hd
    rw [hd, digitsValue_not_digit _ _ (by decide)] at h
    cases h
  · simp only [h]
    rw [if_neg (by omega)]

theorem Atoi_of_not_number (s : String)
    (h : ∀ ds : List Char, s.data = ds ∨ s.data = '-' :: ds ∨ s.data = '+' :: ds →
      digitsValue ds = none) :
    (Atoi s).1 = 0 ∧ (Atoi s).2 ≠ none := by
  unfold Atoi
  split
  · rename_i ds hd
    simp [h ds (Or.inr (Or.inl hd))]
  · rename_i ds hd
    simp [h ds (Or.inr (Or.inr hd))]
  · simp [h s.data (Or.inl rfl)]

theorem Trojan.craft_server_port (t : Trojan) (allowInsecure : Bool) :
    (Trojan.CraftOutboundOptions t allowInsecure).err = none
    ∧ ∃ o : Outbound,
        (Trojan.CraftOutboundOptions t allowInsecure).out = some o
        ∧ o.TrojanOptions.ServerPort = ((Atoi t.Port).1 % 2 ^ 16).toNat :=
  ⟨rfl, _, rfl, rfl⟩

/-- C23, as stated, fails: for the Trojan descriptor with `Port` `abc`, which is
not a decimal number and which `strconv.Atoi` rejects, `CraftOutboundOptions`
reports no error and returns a configuration whose `ServerPort` is 0. -/
theorem craft_port_error_dropped :
    digitsValue "abc".data = none
    ∧ (Atoi "abc").2 ≠ none
    ∧ (Trojan.CraftOutboundOptions
        { OrigLink := "trojan://pw@host:abc", Address := "host", Port := "abc" } false).err
        = none
    ∧ ∃ o : Outbound,
        (Trojan.CraftOutboundOptions
          { OrigLink := "trojan://pw@host:abc", Address := "host", Port := "abc" } false).out
          = some o
        ∧ o.TrojanOptions.ServerPort = 0 :=
  ⟨by decide, by decide, rfl, _, rfl, by decide⟩

/-- C23, amended: `CraftOutboundOptions` never reports an error and always
returns a configuration, whose `ServerPort` is the value of `strconv.Atoi` on
the `Port` field converted to `uint16`; that is 0 when `Port` is not a string of
decimal digits with an optional sign, and `n` when `Port` is a string of
decimal digits of value `n` at most 65535. -/
theorem craft_port_unchecked (t : Trojan) (allowInsecure : Bool) :
    (Trojan.CraftOutboundOptions t allowInsecure).err = none
    ∧ ∃ o : Outbound,
        (Trojan.CraftOutboundOptions t allowInsecure).out = some o
        ∧ o.TrojanOptions.ServerPort = ((Atoi t.Port).1 % 2 ^ 16).toNat
        ∧ ((∀ ds : List Char,
              t.Port.data = ds ∨ t.Port.data = '-' :: ds ∨ t.Port.data = '+' :: ds →
              digitsValue ds = none) →
            o.TrojanOptions.ServerPort = 0)
        ∧ (∀ n : Nat, digitsValue t.Port.data = some n → n ≤ 65535 →
            o.TrojanOptions.ServerPort = n) := by
  obtain ⟨he, o, ho, hp⟩ := Trojan.craft_server_port t allowInsecure
  refine ⟨he, o, ho, hp, ?_, ?_⟩
  · intro h
    rw [hp, (Atoi_of_not_number t.Port h).1]
    rfl
  · intro n hd hn
    rw [hp, Atoi_of_digits t.Port n hd (by omega)]
    show ((n : Int) % 2 ^ 16).toNat = n
    norm_num
    omega

/-- C23, amended, on the descriptors with `Port` `443` and `Port` `https`: the
built `ServerPort` is 443 for the first and 0 for the second. -/
theorem craft_port_unchecked_witness :
    (∃ o : Outbound,
        (Trojan.CraftOutboundOptions
          { OrigLink := "trojan://pw@host:443", Address := "host", Port := "443" } false).out
          = some o
        ∧ o.TrojanOptions.ServerPort = 443)
    ∧ (∃ o : Outbound,
        (Trojan.CraftOutboundOptions
          { OrigLink := "trojan://pw@host:https", Address := "host", Port := "https" } false).out
          = some o
        ∧ o.TrojanOptions.ServerPort = 0) :=
  ⟨match craft_port_unchecked
        { OrigLink := "trojan://pw@host:443", Address := "host", Port := "443" } false with
    | ⟨_, o, ho, _, _, hn⟩ => ⟨o, ho, hn 443 (by decide) (by decide)⟩,
   match craft_port_unchecked
        { OrigLink := "trojan://pw@host:https", Address := "host", Port := "https" } false with
    | ⟨_, o, ho, _, hz, _⟩ =>
      ⟨o, ho, hz (by
        intro ds h
        rcases h with h | h | h
        · rw [← h]; decide
        · exact absurd (show some 'h' = some '-' from congrArg List.head? h) (by decide)
        · exact absurd (show some 'h' = some '+' from congrArg List.head? h) (by decide))⟩⟩

/-! ### The txt output -/

theorem appendLinks_eq (validConfigs : List String) (confRes : configResults) :
    appendLinks validConfigs confRes = validConfigs ++ confRes.map (fun v => v.ConfigLink) := by
  unfold appendLinks
  induction confRes generalizing validConfigs with
  | nil => simp
  | cons r rs ih => simp [List.foldl_cons, ih]

theorem splitAux_nil (sep : List Char) (fuel : Nat) (acc : List Char) :
    splitAux sep fuel acc [] = [String.mk acc.reverse] := by
  cases fuel <;> rfl

theorem splitAux_piece (p : List Char) (hp : ∀ c ∈ p, c ≠ '\n') (k : Nat)
    (acc rest : List Char) :
    splitAux ['\n', '\n'] (p.length + k) acc (p ++ rest)
      = splitAux ['\n', '\n'] k (p.reverse ++ acc) rest := by
  induction p generalizing acc with
  | nil => simp
  | cons c cs ih =>
    have hc : c ≠ '\n' := hp c (List.mem_cons_self c cs)
    have hcs : ∀ d ∈ cs, d ≠ '\n' := fun d hd => hp d (List.mem_cons_of_mem c hd)
    have hl : (c :: cs).length + k = (cs.length + k) + 1 := by
      simp only [List.length_cons]
      omega
    have hpre : List.isPrefixOf ['\n', '\n'] (c :: (cs ++ rest)) = false := by
      simp [List.isPrefixOf, Ne.symm hc]
    rw [hl, List.cons_append]
    simp only [splitAux, hpre, Bool.false_eq_true, if_false]
    rw [ih hcs]
    simp

theorem splitAux_sep (k : Nat) (acc rest : List Char) :
    splitAux ['\n', '\n'] (k + 1) acc ('\n' :: '\n' :: rest)
      = String.mk acc.reverse :: splitAux ['\n', '\n'] k [] rest := by
  simp [splitAux, List.isPrefixOf]

theorem Join_cons_cons (a b : String) (rest : List String) (sep : String) :
    Join (a :: b :: rest) sep = a ++ sep ++ Join (b :: rest) sep := rfl

theorem splitAux_join (l : List String) (hne : l ≠ [])
    (hl : ∀ s ∈ l, ∀ c ∈ s.data, c ≠ '\n') (fuel : Nat)
    (hf : (Join l "\n\n").data.length ≤ fuel) :
    splitAux ['\n', '\n'] fuel [] (Join l "\n\n").data = l := by
  induction l generalizing fuel with
  | nil => exact absurd rfl hne
  | cons a as ih =>
    cases as with
    | nil =>
      have ha : ∀ c ∈ a.data, c ≠ '\n' := hl a (List.mem_cons_self a [])
      have hj : Join [a] "\n\n" = a := rfl
      rw [hj] at hf ⊢
      obtain ⟨k, rfl⟩ := Nat.exists_eq_add_of_le hf
      have h := splitAux_piece a.data ha k [] []
      rw [List.append_nil] at h
      rw [h, splitAux_nil]
      simp
    | cons b bs =>
      have ha : ∀ c ∈ a.data, c ≠ '\n' := hl a (List.mem_cons_self a (b :: bs))
      have hrest : ∀ s ∈ b :: bs, ∀ c ∈ s.data, c ≠ '\n' :=
        fun s hs => hl s (List.mem_cons_of_mem a hs)
      have hd : (Join (a :: b :: bs) "\n\n").data
          = a.data ++ ('\n' :: '\n' :: (Join (b :: bs) "\n\n").data) := by
        rw [Join_cons_cons, String.data_append, String.data_append, List.append_assoc]
        rfl
      rw [hd] at hf ⊢
      simp only [List.length_append, List.length_cons] at hf
      obtain ⟨k, hk⟩ : ∃ k, fuel = a.data.length + (k + 1) := ⟨fuel - a.data.length - 1, by omega⟩
      subst hk
      rw [splitAux_piece a.data ha, splitAux_sep, ih (List.cons_ne_nil b bs) hrest k (by omega)]
      simp

/-- C25: started with an empty `validConfigs`, the txt output is the original
links of the results, in the order of the result list, joined by a blank line
(`"\n\n"`); for every non-empty result list whose links contain no newline,
splitting the output on `"\n\n"` gives back exactly the list of links, in order
and with the length of the result list. -/
theorem txt_output_round_trip (confRes : configResults) :
    txtOutput [] confRes = Join (confRes.map (fun v => v.ConfigLink)) "\n\n"
    ∧ (confRes ≠ [] → (∀ v ∈ confRes, ∀ c ∈ v.ConfigLink.data, c ≠ '\n') →
        Split (txtOutput [] confRes) "\n\n" = confRes.map (fun v => v.ConfigLink)
        ∧ (Split (txtOutput [] confRes) "\n\n").length = confRes.length) := by
  have h1 : txtOutput [] confRes = Join (confRes.map (fun v => v.ConfigLink)) "\n\n" := by
    unfold txtOutput
    rw [appendLinks_eq, List.nil_append]
  refine ⟨h1, ?_⟩
  intro hne hl
  have hs : Split (txtOutput [] confRes) "\n\n" = confRes.map (fun v => v.ConfigLink) := by
    rw [h1]
    unfold Split
    rw [if_neg (by decide)]
    apply splitAux_join
    · intro h
      exact hne (List.map_eq_nil_iff.mp h)
    · intro s hs c hc
      obtain ⟨v, hv, rfl⟩ := List.mem_map.mp hs
      exact hl v hv c hc
    · exact Nat.le_succ _
  refine ⟨hs, ?_⟩
  rw [hs, List.length_map]

/-- C25 on two results with the links `trojan://a@h:1` and `vmess://b`: the
output is `trojan://a@h:1`, a blank line, `vmess://b`, and splitting it gives the
two links back. -/
theorem txt_output_round_trip_witness :
    txtOutput []
        [{ ConfigLink := "trojan://a@h:1", TLS := "tls", Delay := 120,
           DownloadSpeed := float32.fin 0, UploadSpeed := float32.fin 0 },
         { ConfigLink := "vmess://b", TLS := "none", Delay := 80,
           DownloadSpeed := float32.fin 0, UploadSpeed := float32.fin 0 }]
      = "trojan://a@h:1\n\nvmess://b"
    ∧ Split
        (txtOutput []
          [{ ConfigLink := "trojan://a@h:1", TLS := "tls", Delay := 120,
             DownloadSpeed := float32.fin 0, UploadSpeed := float32.fin 0 },
           { ConfigLink := "vmess://b", TLS := "none", Delay := 80,
             DownloadSpeed := float32.fin 0, UploadSpeed := float32.fin 0 }]) "\n\n"
      = ["trojan://a@h:1", "vmess://b"] :=
  ⟨(txt_output_round_trip _).1.trans (by decide),
   ((txt_output_round_trip
      [{ ConfigLink := "trojan://a@h:1", TLS := "tls", Delay := 120,
         DownloadSpeed := float32.fin 0, UploadSpeed := float32.fin 0 },
       { ConfigLink := "vmess://b", TLS := "none", Delay := 80,
         DownloadSpeed := float32.fin 0, UploadSpeed := float32.fin 0 }]).2
      (by simp) (by decide)).1⟩

end XrayKnife
